import Mathlib

/-!
Verification of the social-media video pipeline (`src/app`): a shallow
embedding of the caption timing engine (`app/services/caption_generator.py`),
the render planner's size fitting (`app/services/editor.py`), the analysis
window clamping (`app/services/analyzer.py`), and the pipeline orchestrator
(`app/pipeline.py`, `app/services/drive_watcher.py`, `app/models.py`).

Python `float` values are embedded as exact rationals (`ℚ`); Python `int`
as `ℤ`/`ℕ`.  Strings are modelled by Lean `String`/`List Char` with
hand-rolled, fully executable character-level helpers mirroring the Python
string operations that the source uses (`strip`, `replace`, `split`,
f-string zero padding).  External collaborators (Google Drive, Gemini,
FFmpeg, Postiz, the filesystem) are abstracted as an environment record of
fallible functions; `Except` models Python exceptions, and the job store is
an explicit list of job records threaded through every operation exactly
where `save_job` commits in the source.
-/

set_option maxRecDepth 40000

/-! ## Python numeric primitives -/

/-- Python `int(q)` on a float: truncation toward zero. -/
def pyInt (q : ℚ) : ℤ := if 0 ≤ q then ⌊q⌋ else -⌊-q⌋

/-- Python float floor division `a // b` (result is a float). -/
def pyFloorDiv (a b : ℚ) : ℚ := (⌊a / b⌋ : ℤ)

/-- Python float modulo `a % b` for positive `b`: `a - b * ⌊a / b⌋`. -/
def pyMod (a b : ℚ) : ℚ := a - b * (⌊a / b⌋ : ℤ)

/-! ## Decimal digit strings -/

/-- Fuel-driven little-endian base-10 digit extraction (structural recursion
so that the kernel can evaluate it; agrees with `Nat.digits 10`). -/
def natDigitsF : ℕ → ℕ → List ℕ
  | 0, _ => []
  | _ + 1, 0 => []
  | f + 1, n + 1 => ((n + 1) % 10) :: natDigitsF f ((n + 1) / 10)

/-- Little-endian base-10 digits of `n`. -/
def natDigitsLE (n : ℕ) : List ℕ := natDigitsF n n

/-- Python `str(n)` for a natural number, as characters. -/
def pyNatRepr (n : ℕ) : List Char :=
  if n = 0 then ['0'] else ((natDigitsLE n).reverse).map Nat.digitChar

/-- Python `str(n)` for a natural number, as a string. -/
def natRepr (n : ℕ) : String := ⟨pyNatRepr n⟩

/-- Python f-string `f"{n:0wd}"`: decimal representation zero-padded to
width `w` (the zeros go after the sign for negative numbers). -/
def pad0 (w : ℕ) (n : ℤ) : List Char :=
  match n with
  | .ofNat m => List.replicate (w - (pyNatRepr m).length) '0' ++ pyNatRepr m
  | .negSucc m =>
      '-' :: (List.replicate (w - 1 - (pyNatRepr (m + 1)).length) '0' ++ pyNatRepr (m + 1))

/-- Numeric value of a digit character. -/
def digitVal (c : Char) : ℕ := c.toNat - 48

/-- Value of a big-endian digit-character list. -/
def charsToNat (l : List Char) : ℕ := Nat.ofDigits 10 ((l.map digitVal).reverse)

/-- Parse a nonempty all-digit character list as a natural number; `none`
models the `ValueError` Python raises on any other input. -/
def parseNatChars (l : List Char) : Option ℕ :=
  if l ≠ [] ∧ l.all Char.isDigit then some (charsToNat l) else none

/-! ## Python string helpers (character level) -/

/-- Whitespace characters stripped by Python `str.strip()`. -/
def isSpaceChar (c : Char) : Bool :=
  c = ' ' || c = '\t' || c = '\n' || c = '\x0d' || c = '\x0b' || c = '\x0c'

/-- Python `str.strip()`. -/
def pyStrip (l : List Char) : List Char :=
  ((l.dropWhile isSpaceChar).reverse.dropWhile isSpaceChar).reverse

/-- Python `str.strip()` on a `String`. -/
def pyStripStr (s : String) : String := ⟨pyStrip s.data⟩

/-- Python `str.split(sep)` for a one-character separator. -/
def splitChar (sep : Char) : List Char → List (List Char)
  | [] => [[]]
  | c :: t =>
      if c = sep then [] :: splitChar sep t
      else
        match splitChar sep t with
        | [] => [[c]]
        | h :: r => (c :: h) :: r

/-- Does `l` start with `pat`? (Python `str.startswith`.) -/
def startsWithChars : List Char → List Char → Bool
  | [], _ => true
  | _ :: _, [] => false
  | a :: as, b :: bs => a = b && startsWithChars as bs

/-- Python `pat in s` substring containment, for nonempty `pat`. -/
def hasSubSeq (pat : List Char) : List Char → Bool
  | [] => false
  | c :: t => startsWithChars pat (c :: t) || hasSubSeq pat t

/-- Fuel-driven worker for `splitOnSeq` (Python `str.split(sep)` with a
multi-character separator): scans left to right, cutting at each
non-overlapping occurrence of `pat`. -/
def splitOnSeqF (pat : List Char) : ℕ → List Char → List Char → List (List Char)
  | 0, l, acc => [acc.reverse ++ l]
  | _ + 1, [], acc => [acc.reverse]
  | f + 1, c :: t, acc =>
      if startsWithChars pat (c :: t) then
        acc.reverse :: splitOnSeqF pat f ((c :: t).drop pat.length) []
      else
        splitOnSeqF pat f t (c :: acc)

/-- Python `str.split(sep)` for a nonempty multi-character separator. -/
def splitOnSeq (pat l : List Char) : List (List Char) :=
  splitOnSeqF pat (l.length + 1) l []

/-- Python `float(s)` restricted to the unsigned decimal literals that SRT
timestamps produce (`"12"`, `"01.500"`); `none` models `ValueError`. -/
def parseDecChars (l : List Char) : Option ℚ :=
  match splitChar '.' l with
  | [w] => (parseNatChars w).map (fun n => (n : ℚ))
  | [w, f] =>
      match parseNatChars w, parseNatChars f with
      | some a, some b => some ((a : ℚ) + (b : ℚ) / (10 ^ f.length))
      | _, _ => none
  | _ => none

/-! ## Caption timing engine (`app/services/caption_generator.py`) -/

/-- `seconds_to_srt_time` from `caption_generator.py`, at character level:
`HH:MM:SS,mmm` with zero-padded fields and the millisecond part truncated
from the fractional part.  Arithmetic here is exact over `ℚ`; the source
runs the same operations on IEEE-754 doubles, whose values sit slightly
off the decimal literals — on a double just below a millisecond boundary
(such as CPython's `3661.1`, embedded exactly as `pyFloat_3661_1` below)
the truncation lands one millisecond lower than on the exact decimal
value. -/
def seconds_to_srt_time_chars (t : ℚ) : List Char :=
  let hours := pyInt (pyFloorDiv t 3600)
  let minutes := pyInt (pyFloorDiv (pyMod t 3600) 60)
  let secs := pyInt (pyMod t 60)
  let millis := pyInt ((t - (pyInt t : ℤ)) * 1000)
  pad0 2 hours ++ ':' :: (pad0 2 minutes ++ ':' :: (pad0 2 secs ++ ',' :: pad0 3 millis))

/-- `seconds_to_srt_time` from `caption_generator.py`. -/
def seconds_to_srt_time (t : ℚ) : String := ⟨seconds_to_srt_time_chars t⟩

/-- `_srt_to_seconds` from `caption_generator.py`, at character level:
strip, replace `','` by `'.'`, split on `':'`, and combine the first three
fields as `h*3600 + m*60 + s`; `none` models the exceptions Python raises
on malformed timestamps.  The decimal fields are read exactly into `ℚ`,
whereas the source's `float(...)` rounds each field to the nearest double
(`float("02.675") = 2.6749999999999998…`), below the decimal value
whenever the thousandths digit has no exact binary expansion. -/
def srt_to_seconds_chars (l : List Char) : Option ℚ :=
  let l2 := (pyStrip l).map (fun c => if c = ',' then '.' else c)
  match splitChar ':' l2 with
  | p0 :: p1 :: p2 :: _ =>
      match parseDecChars p0, parseDecChars p1, parseDecChars p2 with
      | some a, some b, some c => some (a * 3600 + b * 60 + c)
      | _, _, _ => none
  | _ => none

/-- `_srt_to_seconds` from `caption_generator.py`. -/
def srt_to_seconds (s : String) : Option ℚ := srt_to_seconds_chars s.data

/-- A transcript segment `{"start": .., "end": .., "text": ..}` as the
pipeline always constructs it (all three keys present; the `dict.get`
defaults of the source are never exercised by callers in the repository). -/
structure Segment where
  start : ℚ
  end_ : ℚ
  text : String
deriving DecidableEq, Repr

/-- The end time actually formatted for a segment: `end` forced to
`start + 1.5` when `end <= start` (`caption_generator.py` lines 36-38). -/
def srtEndTime (seg : Segment) : ℚ :=
  if seg.end_ ≤ seg.start then seg.start + 3 / 2 else seg.end_

/-- The `HH:MM:SS,mmm --> HH:MM:SS,mmm` line for two time values. -/
def mkTimeLine (a b : ℚ) : String :=
  seconds_to_srt_time a ++ " --> " ++ seconds_to_srt_time b

/-- The lines (`srt_lines`) emitted for the segment at 1-based position `i`
by the loop body of `transcript_to_srt`: nothing when the stripped text is
empty, otherwise index line, timestamp line, text line, blank separator. -/
def srtEntryLines (i : ℕ) (seg : Segment) : List String :=
  if pyStripStr seg.text = "" then []
  else [natRepr i, mkTimeLine seg.start (srtEndTime seg), pyStripStr seg.text, ""]

/-- The full `srt_lines` list built by the loop of `transcript_to_srt`,
with `enumerate(transcript, start=1)` indices. -/
def srtLinesFrom (i : ℕ) : List Segment → List String
  | [] => []
  | seg :: rest => srtEntryLines i seg ++ srtLinesFrom (i + 1) rest

/-- The `srt_lines` list of `transcript_to_srt` for a whole transcript. -/
def srtLines (transcript : List Segment) : List String := srtLinesFrom 1 transcript

/-- `transcript_to_srt` from `caption_generator.py`: `none` (nothing
written) for an empty transcript, otherwise the returned path together with
the file content (the `srt_lines` joined with newlines). -/
def transcript_to_srt (transcript : List Segment) (output_path : String) :
    Option (String × String) :=
  if transcript = [] then none
  else some (output_path, String.intercalate "\n" (srtLines transcript))

/-- The separator `" --> "` of SRT timestamp lines. -/
def arrowChars : List Char := [' ', '-', '-', '>', ' ']

/-- The per-line rewrite of `adjust_srt_timing`: a line containing
`" --> "` is split there, both endpoints are parsed, shifted down by
`offset`, clamped at zero and re-formatted; other lines pass through.
`none` models the exception Python raises when an endpoint fails to
parse. -/
def shiftLine (offset : ℚ) (line : String) : Option String :=
  if hasSubSeq arrowChars line.data then
    match splitOnSeq arrowChars line.data with
    | p0 :: p1 :: _ =>
        match srt_to_seconds_chars p0, srt_to_seconds_chars p1 with
        | some s0, some s1 =>
            some ⟨seconds_to_srt_time_chars (max 0 (s0 - offset)) ++
                  (arrowChars ++ seconds_to_srt_time_chars (max 0 (s1 - offset)))⟩
        | _, _ => none
    | _ => none
  else some line

/-- The loop of `adjust_srt_timing` over the file's lines. -/
def shiftLines (offset : ℚ) : List String → Option (List String)
  | [] => some []
  | l :: t =>
      match shiftLine offset l with
      | none => none
      | some l' => (shiftLines offset t).map (l' :: ·)

/-- `adjust_srt_timing` from `caption_generator.py`, on the file's lines:
a zero offset returns immediately without touching the file; otherwise
every line is rewritten by `shiftLine` (and an exception, `none`, leaves
the file unwritten). -/
def adjust_srt_timing (offset_seconds : ℚ) (lines : List String) :
    Option (List String) :=
  if offset_seconds = 0 then some lines else shiftLines offset_seconds lines

/-- The formatted timestamp built from hour/minute/second/millisecond
components, the shape `seconds_to_srt_time` produces for non-negative
times. -/
def mkTsChars (H M S MS : ℕ) : List Char :=
  pad0 2 (H : ℤ) ++ ':' :: (pad0 2 (M : ℤ) ++ ':' :: (pad0 2 (S : ℤ) ++ ',' :: pad0 3 (MS : ℤ)))

/-- `mkTsChars` as a string. -/
def mkTsStr (H M S MS : ℕ) : String := ⟨mkTsChars H M S MS⟩

/-- A time value expressible with (non-negative) millisecond precision. -/
def MsPrec (q : ℚ) : Prop := ∃ n : ℕ, q = (n : ℚ) / 1000

/-- The IEEE-754 double CPython stores for the literal `3661.1` — the
input of the repository's own test `test_caption_generator.py` — as an
exact rational: `(3661.1).as_integer_ratio() = (8050844040901427,
2199023255552)`, a value `1/(5 * 2^41)` below the decimal `3661.1`.  On
this value every intermediate of `seconds_to_srt_time` (the two
remainders, the fractional part, and its product with `1000`, an integer
times `2^(-41)` below `2^53`) is itself exactly representable as a
double, so no further rounding occurs and the exact-rational evaluation
coincides step for step with what CPython computes on the float. -/
def pyFloat_3661_1 : ℚ := 8050844040901427 / 2199023255552

/-- The shape the spec assigns to emitted subtitle files (claim C5): every
block is index line / timestamp line / text / blank, and the index lines
are the consecutive integers `1, 2, 3, …` — equivalently, since each block
occupies four lines, the line at offset `4*k` is `str(k+1)`. -/
def seqIndexContract : Prop :=
  ∀ (t : List Segment) (k : ℕ),
    4 * k < (srtLines t).length → (srtLines t).getD (4 * k) "" = natRepr (k + 1)

/-! ## Render planner size fitting (`app/services/editor.py`) -/

/-- Python `str.replace(".mp4", "_compressed.mp4")` used by
`_compress_video` to derive the re-encoded file's path. -/
def compressedPath (input_path : String) : String :=
  input_path.replace ".mp4" "_compressed.mp4"

/-- The target video bitrate (kbps) computed by `_compress_video`:
`int((max_mb * 8 * 1024) / duration)`. -/
def compress_target_bitrate (max_mb : ℤ) (duration : ℚ) : ℤ :=
  pyInt (((max_mb * 8 * 1024 : ℤ) : ℚ) / duration)

/-- The re-encode plan of `_compress_video`: the FFmpeg rate arguments
(`-b:v`, `-maxrate`, `-bufsize` in kbps and the fixed `-b:a 96k`), the
file removed by `os.remove`, and the path returned to the caller. -/
structure CompressPlan where
  video_bitrate : ℤ
  maxrate : ℤ
  bufsize : ℤ
  audio_bitrate : ℤ
  removed_path : String
  returned_path : String
deriving DecidableEq, Repr

/-- `_compress_video` from `editor.py` (the FFmpeg invocation itself is
external; its argument computation, the removal of the oversized input and
the returned path are modelled). -/
def compress_video (input_path : String) (max_mb : ℤ) (duration : ℚ) : CompressPlan :=
  let tb := compress_target_bitrate max_mb duration
  { video_bitrate := tb
    maxrate := tb
    bufsize := tb * 2
    audio_bitrate := 96
    removed_path := input_path
    returned_path := compressedPath input_path }

/-- The tail of `edit_video` (lines 103-111): when the rendered output's
size exceeds `settings.max_output_size_mb`, `_compress_video` replaces it
and its path is returned; otherwise the original path is returned. -/
def edit_video_final_path (output_path : String) (output_size_mb : ℚ)
    (max_mb : ℤ) (duration : ℚ) : String :=
  if output_size_mb > (max_mb : ℚ) then
    (compress_video output_path max_mb duration).returned_path
  else output_path

/-! ## Analysis window clamping (`app/services/analyzer.py`, lines 102-110) -/

/-- The validate-and-clamp pass of `analyze_video` on the values parsed from
the Gemini response: `trim_start` is clamped below by `0`, `trim_end` is
clamped above by the duration, and a window shorter than 5 seconds is
replaced by the default `[0, min(duration, 60)]`. -/
def analyze_clamp_window (trim_start_raw trim_end_raw duration : ℚ) : ℚ × ℚ :=
  let trim_start := max 0 trim_start_raw
  let trim_end := min duration trim_end_raw
  if trim_end - trim_start < 5 then (0, min duration 60) else (trim_start, trim_end)

/-! ## Data model (`app/models.py`) -/

/-- `AnalysisResult` from `analyzer.py`. -/
structure AnalysisResult where
  trim_start_sec : ℚ
  trim_end_sec : ℚ
  hook_text : String
  caption_style : String
  transcript : List Segment
  suggested_caption : String
  hashtags : List String
  raw_duration_sec : ℚ
deriving DecidableEq, Repr

/-- `VideoJob` from `models.py` (the three `datetime` bookkeeping columns
are not modelled; no claim concerns them). -/
structure VideoJob where
  id : ℕ
  drive_file_id : String
  file_name : String
  status : String
  error : Option String
  local_path : Option String
  output_path : Option String
  captions_path : Option String
  suggested_caption : Option String
  hashtags : Option String
  hook_text : Option String
  postiz_post_id : Option String
deriving DecidableEq, Repr

/-- `VideoJob.set_status`: sets the status and stores the error only when
it is truthy (Python `if error:` skips `None` and `""`). -/
def setStatus (j : VideoJob) (status : String) (error : Option String) : VideoJob :=
  { j with
    status := status
    error := match error with
             | some e => if e = "" then j.error else some e
             | none => j.error }

/-- The job store: the rows of the `videojob` table. -/
abbrev Store := List VideoJob

/-- `get_job_by_drive_id` from `models.py`: first row with the given
Drive file id. -/
def get_job_by_drive_id (drive_file_id : String) (s : Store) : Option VideoJob :=
  List.find? (fun j => j.drive_file_id = drive_file_id) s

/-- `get_job_by_id` from `models.py`. -/
def get_job_by_id (job_id : ℕ) (s : Store) : Option VideoJob :=
  List.find? (fun j => j.id = job_id) s

/-- The primary key SQLite assigns to a newly inserted row (one larger than
the largest id in the table). -/
def nextId (s : Store) : ℕ := (List.map VideoJob.id s).foldr max 0 + 1

/-- `save_job` on a job that already has a primary key: whole-record
upsert keyed by `id`. -/
def save_job (j : VideoJob) (s : Store) : Store :=
  if List.any s (fun x => x.id = j.id) then
    List.map (fun x => if x.id = j.id then j else x) s
  else s ++ [j]

/-- The freshly inserted row: every application-settable column from the
constructor call, every other column at its model default, and the primary
key assigned by SQLite. -/
def mkNewJob (drive_file_id file_name status : String) (s : Store) : VideoJob :=
  { id := nextId s, drive_file_id := drive_file_id, file_name := file_name
    status := status, error := none, local_path := none, output_path := none
    captions_path := none, suggested_caption := none, hashtags := none
    hook_text := none, postiz_post_id := none }

/-- `save_job` on a freshly constructed job (no primary key yet): SQLite
assigns the id, and the `unique=True` index on `drive_file_id` makes the
insert raise `IntegrityError` when a row with that Drive file id already
exists. -/
def insert_job (drive_file_id file_name status : String) (s : Store) :
    Except String (VideoJob × Store) :=
  if List.any s (fun x => x.drive_file_id = drive_file_id) then
    Except.error "IntegrityError: UNIQUE constraint failed: videojob.drive_file_id"
  else
    let j : VideoJob := mkNewJob drive_file_id file_name status s
    Except.ok (j, s ++ [j])

/-- Number of stored jobs carrying a given external (Drive) file id. -/
def countByDrive (d : String) (s : Store) : ℕ :=
  (List.filter (fun j => j.drive_file_id = d) s).length

/-! ## External collaborators and the orchestrator (`app/pipeline.py`,
`app/services/drive_watcher.py`) -/

/-- A file entry returned by the Drive listing. -/
structure DriveFile where
  id : String
  name : String
deriving DecidableEq, Repr

/-- The external collaborators of one pipeline run: the Drive listing, the
Drive download, the Gemini analysis, the FFmpeg edit, the Postiz post and
the local filesystem check used by `retry_job`.  `Except.error` models the
adapter call raising. -/
structure Env where
  listing : Except String (List DriveFile)
  download : String → String → Except String String
  analyze : Option String → Except String AnalysisResult
  edit : Option String → AnalysisResult → Option String → String → Except String String
  post : String → String → List String → Except String String
  fileExists : String → Bool

/-- `Path(name).suffix` (pathlib): the final extension, empty unless the
last dot sits strictly inside the name. -/
def pathSuffix (name : String) : String :=
  let cs := name.data
  match (List.range cs.length).filter (fun i => cs.getD i ' ' = '.') |>.getLast? with
  | some i => if 0 < i ∧ i < cs.length - 1 then ⟨cs.drop i⟩ else ""
  | none => ""

/-- `Path(name).stem` (pathlib): the name with `pathSuffix` removed. -/
def pathStem (name : String) : String :=
  ⟨name.data.take (name.data.length - (pathSuffix name).data.length)⟩

/-- `SUPPORTED_EXTENSIONS` membership test of `drive_watcher.py`
(lower-cased suffix). -/
def supportedExt (name : String) : Bool :=
  let ext := ⟨(pathSuffix name).data.map Char.toLower⟩
  [".mp4", ".mov", ".avi", ".mkv", ".webm"].contains ext

/-- `list_new_files` from `drive_watcher.py` applied to a fetched listing:
keep files with a supported extension for which no job with that Drive file
id exists yet. -/
def list_new_files (files : List DriveFile) (s : Store) : List DriveFile :=
  files.filter (fun f =>
    supportedExt f.name && (get_job_by_drive_id f.id s).isNone)

/-- `settings.captions_dir` with the default `data_dir`. -/
def captionsDir : String := "./data/captions"

/-- `settings.output_dir` with the default `data_dir`. -/
def outputDir : String := "./data/output"

/-- The trim-offset adjustment loop of `process_job` (`pipeline.py` lines
56-65): shift each segment down by the trim start, keep it only when the
shifted end is positive, and clamp the shifted times below by `0`. -/
def adjustTranscript (transcript : List Segment) (trim_start : ℚ) : List Segment :=
  match transcript with
  | [] => []
  | seg :: rest =>
      let new_start := seg.start - trim_start
      let new_end := seg.end_ - trim_start
      if 0 < new_end then
        ⟨max 0 new_start, max 0 new_end, seg.text⟩ :: adjustTranscript rest trim_start
      else adjustTranscript rest trim_start

/-- The `except` handler of `process_job` (`pipeline.py` lines 98-100):
transition the job to `failed` with the error recorded and persist it. -/
def job_fail (j : VideoJob) (s : Store) (e : String) : VideoJob × Store :=
  let jf := setStatus j "failed" (some e)
  (jf, save_job jf s)

/-- The `=== POST ===` block of `process_job` (`pipeline.py` lines 86-96):
status `posting`, publish via Postiz, record the post id, status `done`. -/
def post_step (env : Env) (analysis : AnalysisResult) (edited_path : String)
    (j : VideoJob) (s : Store) : VideoJob × Store :=
  let j6 := setStatus j "posting" none
  let s6 := save_job j6 s
  match env.post edited_path analysis.suggested_caption analysis.hashtags with
  | Except.error e => job_fail j6 s6 e
  | Except.ok post_id =>
      let j7 := setStatus { j6 with postiz_post_id := some post_id } "done" none
      (j7, save_job j7 s6)

/-- The `=== EDIT ===` block of `process_job` (`pipeline.py` lines 73-84):
status `editing`, run FFmpeg, record the output path, then post. -/
def edit_step (env : Env) (analysis : AnalysisResult) (srt_result : Option String)
    (stem : String) (j : VideoJob) (s : Store) : VideoJob × Store :=
  let j4 := setStatus j "editing" none
  let s4 := save_job j4 s
  let output_path := outputDir ++ "/" ++ stem ++ "_edited.mp4"
  match env.edit j4.local_path analysis srt_result output_path with
  | Except.error e => job_fail j4 s4 e
  | Except.ok edited_path =>
      let j5 := { j4 with output_path := some edited_path }
      let s5 := save_job j5 s4
      post_step env analysis edited_path j5 s5

/-- The `=== GENERATE CAPTIONS ===` block of `process_job` (`pipeline.py`
lines 50-71): adjust the transcript by the trim offset, write the SRT (or
`None`), record the captions path, then edit. -/
def caption_step (env : Env) (analysis : AnalysisResult) (j : VideoJob) (s : Store) :
    VideoJob × Store :=
  let stem := pathStem j.file_name
  let srt_path := captionsDir ++ "/" ++ stem ++ ".srt"
  let srt_result : Option String :=
    if analysis.transcript ≠ [] then
      (transcript_to_srt
        (adjustTranscript analysis.transcript analysis.trim_start_sec)
        srt_path).map Prod.fst
    else none
  let j3 := { j with captions_path := srt_result }
  let s3 := save_job j3 s
  edit_step env analysis srt_result stem j3 s3

/-- `process_job` from `pipeline.py`: analyze, store analysis fields,
generate captions, edit, post — persisting the job after every mutation —
and on any step failure transition the job to `failed` with the error
recorded (the `try/except` of lines 35-100).  The step blocks follow the
source's `===` section comments.  Returns the final job and store. -/
def process_job (env : Env) (job : VideoJob) (s : Store) : VideoJob × Store :=
  let j1 := setStatus job "analyzing" none
  let s1 := save_job j1 s
  match env.analyze j1.local_path with
  | Except.error e => job_fail j1 s1 e
  | Except.ok analysis =>
      let j2 := { j1 with
                  suggested_caption := some analysis.suggested_caption
                  hashtags := some (String.intercalate "," analysis.hashtags)
                  hook_text := some analysis.hook_text }
      let s2 := save_job j2 s1
      caption_step env analysis j2 s2

/-- `create_and_download_job` from `drive_watcher.py`: insert a job with
status `downloading`, then download; on success store the local path and
mark the job `downloaded`.  An exception (`Except.error`) carries the store
as already committed — the job row stays behind in status `downloading`. -/
def create_and_download_job (env : Env) (f : DriveFile) (s : Store) :
    Except (String × Store) (VideoJob × Store) :=
  match insert_job f.id f.name "downloading" s with
  | Except.error e => Except.error (e, s)
  | Except.ok (j, s1) =>
      match env.download f.id f.name with
      | Except.error e => Except.error (e, s1)
      | Except.ok local_path =>
          let j2 := { j with local_path := some local_path, status := "downloaded" }
          Except.ok (j2, save_job j2 s1)

/-- The body of the scan loop of `run_pipeline` (lines 117-122) for one
discovered file: `create_and_download_job` then `process_job`, with any
exception caught and merely logged — the store stays as committed at the
point of failure. -/
def scanItem (env : Env) (s : Store) (f : DriveFile) : Store :=
  match create_and_download_job env f s with
  | Except.error (_, s') => s'
  | Except.ok (j, s1) => (process_job env j s1).2

/-- `run_pipeline` from `pipeline.py`: fetch the Drive listing (a listing
failure aborts the scan with the store untouched), filter to files not yet
represented by a job, and run the scan loop over them. -/
def run_pipeline (env : Env) (s : Store) : Store :=
  match env.listing with
  | Except.error _ => s
  | Except.ok files => (list_new_files files s).foldl (scanItem env) s

/-- `retry_job` from `pipeline.py`: `false` without touching the store for
an unknown id or a job whose status is not `failed`; otherwise the error
field is cleared, a missing local file is re-downloaded (through
`downloading`/`downloaded`), and `process_job` runs.  A download exception
propagates (`Except.error` with the store as committed). -/
def retry_job (env : Env) (job_id : ℕ) (s : Store) :
    Except (String × Store) (Bool × Store) :=
  match get_job_by_id job_id s with
  | none => Except.ok (false, s)
  | some job =>
      if job.status = "failed" then
        let j1 := { job with error := none }
        let missing : Bool :=
          match j1.local_path with
          | none => true
          | some p => p = "" || !(env.fileExists p)
        if missing then
          let j2 := setStatus j1 "downloading" none
          let s2 := save_job j2 s
          match env.download job.drive_file_id job.file_name with
          | Except.error e => Except.error (e, s2)
          | Except.ok local_path =>
              let j3 := setStatus { j2 with local_path := some local_path } "downloaded" none
              let s3 := save_job j3 s2
              Except.ok (true, (process_job env j3 s3).2)
        else Except.ok (true, (process_job env j1 s).2)
      else Except.ok (false, s)

/-- A fully successful set of collaborators over two Drive files, except
that downloading file `"A"` raises (`Except.error "boom"`). -/
def envDownFailA : Env :=
  { listing := Except.ok [⟨"A", "a.mp4"⟩, ⟨"B", "b.mp4"⟩]
    download := fun fid _ => if fid = "A" then Except.error "boom" else Except.ok "/dl/b.mp4"
    analyze := fun _ => Except.ok
      { trim_start_sec := 0, trim_end_sec := 30, hook_text := "H", caption_style := "bold"
        transcript := [], suggested_caption := "cap", hashtags := ["x"], raw_duration_sec := 30 }
    edit := fun _ _ _ out => Except.ok out
    post := fun _ _ _ => Except.ok "p1"
    fileExists := fun _ => true }

/-- Collaborators for which every call succeeds, over a single Drive file. -/
def envAllOk : Env :=
  { listing := Except.ok [⟨"F1", "clip.mp4"⟩]
    download := fun _ _ => Except.ok "./data/downloads/clip.mp4"
    analyze := fun _ => Except.ok
      { trim_start_sec := 0, trim_end_sec := 30, hook_text := "H", caption_style := "bold"
        transcript := [], suggested_caption := "cap", hashtags := ["x"], raw_duration_sec := 30 }
    edit := fun _ _ _ out => Except.ok out
    post := fun _ _ _ => Except.ok "p1"
    fileExists := fun _ => true }

/-- A `failed` job whose local source file is still on disk. -/
def jobFailedF1 : VideoJob :=
  { id := 1, drive_file_id := "F1", file_name := "clip.mp4", status := "failed"
    error := some "FFmpeg failed (code 1)", local_path := some "./data/downloads/clip.mp4"
    output_path := none, captions_path := none, suggested_caption := none
    hashtags := none, hook_text := none, postiz_post_id := none }

/-- A job that already completed the chain. -/
def jobDoneF2 : VideoJob :=
  { id := 2, drive_file_id := "F2", file_name := "other.mp4", status := "done"
    error := none, local_path := some "./data/downloads/other.mp4"
    output_path := some "./data/output/other_edited.mp4", captions_path := none
    suggested_caption := some "c", hashtags := some "x", hook_text := some "H"
    postiz_post_id := some "p9" }

/-- A store holding one `failed` job with an intact local file, one `done`
job, and nothing else; used to exercise `retry_job`. -/
def storeRetry : Store := [jobFailedF1, jobDoneF2]

-- sanity checks (from `tests/test_caption_generator.py`)
example : seconds_to_srt_time 0 = "00:00:00,000" := by with_unfolding_all decide
example : seconds_to_srt_time (3 / 2) = "00:00:01,500" := by with_unfolding_all decide
example : seconds_to_srt_time (61 + 1 / 4) = "00:01:01,250" := by with_unfolding_all decide
example : srt_to_seconds "00:01:01,250" = some (61 + 1 / 4) := by with_unfolding_all decide
example : mkTimeLine 0 (5 / 2) = "00:00:00,000 --> 00:00:02,500" := by
  with_unfolding_all decide

/-! ## Digit-string lemmas -/

theorem natDigitsF_eq_digits : ∀ (f n : ℕ), n ≤ f → natDigitsF f n = Nat.digits 10 n := by
  intro f
  induction f with
  | zero =>
      intro n h
      have hn : n = 0 := Nat.le_zero.mp h
      subst hn
      simp [natDigitsF]
  | succ f ih =>
      intro n h
      match n with
      | 0 => simp [natDigitsF]
      | Nat.succ m =>
          rw [show natDigitsF (f + 1) (m + 1) =
                ((m + 1) % 10) :: natDigitsF f ((m + 1) / 10) from rfl]
          rw [Nat.digits_def' (by norm_num : (1 : ℕ) < 10) (Nat.succ_pos m)]
          rw [ih ((m + 1) / 10) (by
            have := Nat.div_lt_self (Nat.succ_pos m) (by norm_num : 1 < 10)
            omega)]

theorem natDigitsLE_eq (n : ℕ) : natDigitsLE n = Nat.digits 10 n :=
  natDigitsF_eq_digits n n le_rfl

theorem digitChar_isDigit : ∀ d : ℕ, d < 10 → (Nat.digitChar d).isDigit = true := by decide

theorem digitVal_digitChar : ∀ d : ℕ, d < 10 → digitVal (Nat.digitChar d) = d := by decide

theorem pyNatRepr_ne_nil (n : ℕ) : pyNatRepr n ≠ [] := by
  unfold pyNatRepr
  split
  · simp
  · rename_i h
    simp only [ne_eq, List.map_eq_nil_iff, List.reverse_eq_nil_iff]
    rw [natDigitsLE_eq]
    exact Nat.digits_ne_nil_iff_ne_zero.mpr h

theorem pyNatRepr_all_digits (n : ℕ) : ∀ c ∈ pyNatRepr n, c.isDigit = true := by
  intro c hc
  unfold pyNatRepr at hc
  split at hc
  · simp only [List.mem_singleton] at hc
    subst hc
    decide
  · rw [natDigitsLE_eq] at hc
    simp only [List.mem_map, List.mem_reverse] at hc
    obtain ⟨d, hd, rfl⟩ := hc
    exact digitChar_isDigit d (Nat.digits_lt_base (by norm_num) hd)

theorem charsToNat_map_digitChar (L : List ℕ) (h : ∀ d ∈ L, d < 10) :
    charsToNat ((L.reverse).map Nat.digitChar) = Nat.ofDigits 10 L := by
  unfold charsToNat
  rw [List.map_map]
  have e : (L.reverse).map (digitVal ∘ Nat.digitChar) = L.reverse := by
    have hx : ∀ a ∈ L.reverse, (digitVal ∘ Nat.digitChar) a = a := by
      intro a ha
      exact digitVal_digitChar a (h a (List.mem_reverse.mp ha))
    calc (L.reverse).map (digitVal ∘ Nat.digitChar)
        = (L.reverse).map id := List.map_congr_left hx
      _ = L.reverse := List.map_id _
  rw [e, List.reverse_reverse]

theorem charsToNat_pyNatRepr (n : ℕ) : charsToNat (pyNatRepr n) = n := by
  unfold pyNatRepr
  split
  · rename_i h
    subst h
    decide
  · rw [natDigitsLE_eq,
      charsToNat_map_digitChar _ (fun d hd => Nat.digits_lt_base (by norm_num) hd),
      Nat.ofDigits_digits]

theorem ofDigits_replicate_zero (k : ℕ) : Nat.ofDigits 10 (List.replicate k 0) = 0 := by
  induction k with
  | zero => simp [Nat.ofDigits]
  | succ k ih => simp [List.replicate_succ, Nat.ofDigits_cons, ih]

theorem charsToNat_zeros_append (k : ℕ) (l : List Char) :
    charsToNat (List.replicate k '0' ++ l) = charsToNat l := by
  unfold charsToNat
  rw [List.map_append, List.map_replicate,
    show digitVal '0' = 0 from rfl,
    List.reverse_append, List.reverse_replicate, Nat.ofDigits_append,
    ofDigits_replicate_zero]
  simp

theorem parseNatChars_pad (k n : ℕ) :
    parseNatChars (List.replicate k '0' ++ pyNatRepr n) = some n := by
  unfold parseNatChars
  rw [if_pos]
  · rw [charsToNat_zeros_append, charsToNat_pyNatRepr]
  · constructor
    · intro h
      rcases List.append_eq_nil.mp h with ⟨-, h2⟩
      exact pyNatRepr_ne_nil n h2
    · rw [List.all_append, Bool.and_eq_true]
      constructor
      · rw [List.all_eq_true]
        intro c hc
        rw [List.eq_of_mem_replicate hc]
        decide
      · rw [List.all_eq_true]
        exact pyNatRepr_all_digits n

theorem pyNatRepr_length_le (n w : ℕ) (hw : 1 ≤ w) (h : n < 10 ^ w) :
    (pyNatRepr n).length ≤ w := by
  unfold pyNatRepr
  split
  · simpa using hw
  · rename_i h0
    rw [List.length_map, List.length_reverse, natDigitsLE_eq,
      Nat.digits_len 10 n (by norm_num) h0]
    have := Nat.log_lt_of_lt_pow h0 h
    omega

theorem pad0_natCast (w m : ℕ) :
    pad0 w ((m : ℕ) : ℤ) = List.replicate (w - (pyNatRepr m).length) '0' ++ pyNatRepr m := rfl

theorem pad0_length (w m : ℕ) (hw : 1 ≤ w) (h : m < 10 ^ w) :
    (pad0 w ((m : ℕ) : ℤ)).length = w := by
  rw [pad0_natCast, List.length_append, List.length_replicate]
  have := pyNatRepr_length_le m w hw h
  omega

theorem pad0_all_digits (w m : ℕ) : ∀ c ∈ pad0 w ((m : ℕ) : ℤ), c.isDigit = true := by
  rw [pad0_natCast]
  intro c hc
  rcases List.mem_append.mp hc with h | h
  · rw [List.eq_of_mem_replicate h]
    decide
  · exact pyNatRepr_all_digits m c h

theorem parseNatChars_pad0 (w m : ℕ) : parseNatChars (pad0 w ((m : ℕ) : ℤ)) = some m := by
  rw [pad0_natCast]
  exact parseNatChars_pad _ m

/-! ## Character facts and Python string-operation lemmas -/

theorem isDigit_ne_colon {c : Char} (h : c.isDigit = true) : c ≠ ':' := by
  intro hc
  subst hc
  exact absurd h (by decide)

theorem isDigit_ne_dot {c : Char} (h : c.isDigit = true) : c ≠ '.' := by
  intro hc
  subst hc
  exact absurd h (by decide)

theorem isDigit_ne_comma {c : Char} (h : c.isDigit = true) : c ≠ ',' := by
  intro hc
  subst hc
  exact absurd h (by decide)

theorem isDigit_ne_space {c : Char} (h : c.isDigit = true) : isSpaceChar c = false := by
  have h1 : c ≠ ' ' := by intro hc; subst hc; exact absurd h (by decide)
  have h2 : c ≠ '\t' := by intro hc; subst hc; exact absurd h (by decide)
  have h3 : c ≠ '\n' := by intro hc; subst hc; exact absurd h (by decide)
  have h4 : c ≠ '\x0d' := by intro hc; subst hc; exact absurd h (by decide)
  have h5 : c ≠ '\x0b' := by intro hc; subst hc; exact absurd h (by decide)
  have h6 : c ≠ '\x0c' := by intro hc; subst hc; exact absurd h (by decide)
  simp [isSpaceChar, h1, h2, h3, h4, h5, h6]

theorem dropWhile_eq_self_of (p : Char → Bool) (l : List Char)
    (h : ∀ c ∈ l, p c = false) : l.dropWhile p = l := by
  cases l with
  | nil => rfl
  | cons c t =>
      rw [List.dropWhile_cons, h c (List.mem_cons_self c t)]
      simp

theorem pyStrip_eq_self (l : List Char) (h : ∀ c ∈ l, isSpaceChar c = false) :
    pyStrip l = l := by
  unfold pyStrip
  rw [dropWhile_eq_self_of _ _ h,
    dropWhile_eq_self_of _ _ (fun c hc => h c (List.mem_reverse.mp hc)),
    List.reverse_reverse]

theorem splitChar_ne_nil (sep : Char) (l : List Char) : splitChar sep l ≠ [] := by
  cases l with
  | nil => simp [splitChar]
  | cons c t =>
      simp only [splitChar]
      split
      · simp
      · split <;> simp

theorem splitChar_no_sep (sep : Char) (l : List Char) (h : ∀ c ∈ l, c ≠ sep) :
    splitChar sep l = [l] := by
  induction l with
  | nil => rfl
  | cons c t ih =>
      have hc : c ≠ sep := h c (List.mem_cons_self c t)
      simp only [splitChar, if_neg hc]
      rw [ih (fun x hx => h x (List.mem_cons_of_mem _ hx))]

theorem splitChar_append (sep : Char) (a r : List Char) (h : ∀ c ∈ a, c ≠ sep) :
    splitChar sep (a ++ sep :: r) = a :: splitChar sep r := by
  induction a with
  | nil => simp [splitChar]
  | cons c t ih =>
      have hc : c ≠ sep := h c (List.mem_cons_self c t)
      simp only [List.cons_append, splitChar, if_neg hc]
      simp only [List.append_eq]
      rw [ih (fun x hx => h x (List.mem_cons_of_mem _ hx))]

theorem map_comma_dot_of_digits (l : List Char) (h : ∀ c ∈ l, c.isDigit = true) :
    l.map (fun c => if c = ',' then '.' else c) = l := by
  induction l with
  | nil => rfl
  | cons c t ih =>
      rw [List.map_cons, if_neg (isDigit_ne_comma (h c (List.mem_cons_self c t))),
        ih (fun x hx => h x (List.mem_cons_of_mem _ hx))]

theorem parseDecChars_pad0 (w m : ℕ) : parseDecChars (pad0 w ((m : ℕ) : ℤ)) = some ((m : ℕ) : ℚ) := by
  unfold parseDecChars
  rw [splitChar_no_sep '.' _ (fun c hc => isDigit_ne_dot (pad0_all_digits w m c hc))]
  dsimp only
  rw [parseNatChars_pad0]
  rfl

theorem parseDecChars_frac (S MS : ℕ) (h : MS < 1000) :
    parseDecChars (pad0 2 ((S : ℕ) : ℤ) ++ '.' :: pad0 3 ((MS : ℕ) : ℤ)) =
      some ((S : ℚ) + (MS : ℚ) / 1000) := by
  unfold parseDecChars
  rw [splitChar_append '.' _ _ (fun c hc => isDigit_ne_dot (pad0_all_digits 2 S c hc)),
    splitChar_no_sep '.' _ (fun c hc => isDigit_ne_dot (pad0_all_digits 3 MS c hc))]
  dsimp only
  rw [parseNatChars_pad0, parseNatChars_pad0]
  dsimp only
  rw [pad0_length 3 MS (by norm_num) (by omega)]
  norm_num

/-! ## Timestamp formatting and parsing -/

theorem floorDivNat (a b : ℕ) : ⌊(a : ℚ) / (b : ℚ)⌋ = ((a / b : ℕ) : ℤ) := by
  have h := Rat.floor_intCast_div_natCast (a : ℤ) b
  have e1 : (((a : ℤ) : ℚ)) = (a : ℚ) := by norm_cast
  rw [e1] at h
  rw [h]
  exact (Int.natCast_div a b).symm

theorem pyInt_intCast (k : ℤ) : pyInt ((k : ℤ) : ℚ) = k := by
  unfold pyInt
  split
  · exact Int.floor_intCast k
  · rw [← Int.cast_neg, Int.floor_intCast]
    ring

theorem pyInt_natCast (m : ℕ) : pyInt ((m : ℕ) : ℚ) = ((m : ℕ) : ℤ) := by
  have h := pyInt_intCast ((m : ℕ) : ℤ)
  rw [← h]
  norm_num

theorem intCast_natCast_q (m : ℕ) : (((m : ℕ) : ℤ) : ℚ) = ((m : ℕ) : ℚ) := by
  norm_cast

theorem pyFloorDiv_thousandths (n k : ℕ) :
    pyFloorDiv ((n : ℚ) / 1000) ((k : ℕ) : ℚ) = ((n / (1000 * k) : ℕ) : ℚ) := by
  unfold pyFloorDiv
  have e : (n : ℚ) / 1000 / (k : ℚ) = (n : ℚ) / ((1000 * k : ℕ) : ℚ) := by
    push_cast
    ring
  rw [e, floorDivNat, intCast_natCast_q]

theorem pyMod_thousandths (n k : ℕ) :
    pyMod ((n : ℚ) / 1000) ((k : ℕ) : ℚ) = ((n % (1000 * k) : ℕ) : ℚ) / 1000 := by
  unfold pyMod
  have e : (n : ℚ) / 1000 / (k : ℚ) = (n : ℚ) / ((1000 * k : ℕ) : ℚ) := by
    push_cast
    ring
  rw [e, floorDivNat, intCast_natCast_q]
  have hq : (1000 * (k : ℚ)) * ((n / (1000 * k) : ℕ) : ℚ) + ((n % (1000 * k) : ℕ) : ℚ) =
      (n : ℚ) := by
    exact_mod_cast Nat.div_add_mod n (1000 * k)
  linear_combination -hq / 1000

theorem format_thousandths (n : ℕ) :
    seconds_to_srt_time_chars ((n : ℚ) / 1000) =
      mkTsChars (n / 3600000) (n % 3600000 / 60000) (n % 60000 / 1000) (n % 1000) := by
  unfold seconds_to_srt_time_chars mkTsChars
  have c3600 : (3600 : ℚ) = ((3600 : ℕ) : ℚ) := by norm_num
  have c60 : (60 : ℚ) = ((60 : ℕ) : ℚ) := by norm_num
  have h1 : pyInt (pyFloorDiv ((n : ℚ) / 1000) 3600) = ((n / 3600000 : ℕ) : ℤ) := by
    rw [c3600, pyFloorDiv_thousandths n 3600, pyInt_natCast]
  have h2 : pyInt (pyFloorDiv (pyMod ((n : ℚ) / 1000) 3600) 60) =
      ((n % 3600000 / 60000 : ℕ) : ℤ) := by
    rw [c3600, pyMod_thousandths n 3600, c60,
      pyFloorDiv_thousandths (n % (1000 * 3600)) 60, pyInt_natCast]
  have h3 : pyInt (pyMod ((n : ℚ) / 1000) 60) = ((n % 60000 / 1000 : ℕ) : ℤ) := by
    rw [c60, pyMod_thousandths n 60]
    unfold pyInt
    rw [if_pos (by positivity),
      show (1000 : ℚ) = ((1000 : ℕ) : ℚ) by norm_num, floorDivNat]
  have h4 : pyInt (((n : ℚ) / 1000 - (pyInt ((n : ℚ) / 1000) : ℤ)) * 1000) =
      ((n % 1000 : ℕ) : ℤ) := by
    have hfl : pyInt ((n : ℚ) / 1000) = ((n / 1000 : ℕ) : ℤ) := by
      unfold pyInt
      rw [if_pos (by positivity)]
      rw [show (1000 : ℚ) = ((1000 : ℕ) : ℚ) by norm_num, floorDivNat]
    rw [hfl, intCast_natCast_q]
    have hq : (1000 : ℚ) * ((n / 1000 : ℕ) : ℚ) + ((n % 1000 : ℕ) : ℚ) = (n : ℚ) := by
      exact_mod_cast Nat.div_add_mod n 1000
    have e : ((n : ℚ) / 1000 - ((n / 1000 : ℕ) : ℚ)) * 1000 = ((n % 1000 : ℕ) : ℚ) := by
      linear_combination -hq
    rw [e, pyInt_natCast]
  rw [h1, h2, h3, h4]

theorem mkTsChars_no_space (H M S MS : ℕ) :
    ∀ c ∈ mkTsChars H M S MS, isSpaceChar c = false := by
  intro c hc
  unfold mkTsChars at hc
  simp only [List.mem_append, List.mem_cons] at hc
  rcases hc with h | h | h | h | h | h | h
  · exact isDigit_ne_space (pad0_all_digits 2 H c h)
  · subst h; decide
  · exact isDigit_ne_space (pad0_all_digits 2 M c h)
  · subst h; decide
  · exact isDigit_ne_space (pad0_all_digits 2 S c h)
  · subst h; decide
  · exact isDigit_ne_space (pad0_all_digits 3 MS c h)

theorem mkTsChars_map_dot (H M S MS : ℕ) :
    (mkTsChars H M S MS).map (fun c => if c = ',' then '.' else c) =
      pad0 2 ((H : ℕ) : ℤ) ++ ':' ::
        (pad0 2 ((M : ℕ) : ℤ) ++ ':' :: (pad0 2 ((S : ℕ) : ℤ) ++ '.' :: pad0 3 ((MS : ℕ) : ℤ))) := by
  simp only [mkTsChars, List.map_append, List.map_cons,
    map_comma_dot_of_digits _ (pad0_all_digits 2 H),
    map_comma_dot_of_digits _ (pad0_all_digits 2 M),
    map_comma_dot_of_digits _ (pad0_all_digits 2 S),
    map_comma_dot_of_digits _ (pad0_all_digits 3 MS)]
  rw [if_neg (show ¬(':' = ',') by decide)]
  simp

theorem parse_mkTs (H M S MS : ℕ) (h : MS < 1000) :
    srt_to_seconds_chars (mkTsChars H M S MS) =
      some ((H : ℚ) * 3600 + (M : ℚ) * 60 + ((S : ℚ) + (MS : ℚ) / 1000)) := by
  unfold srt_to_seconds_chars
  rw [pyStrip_eq_self _ (mkTsChars_no_space H M S MS), mkTsChars_map_dot]
  dsimp only
  rw [splitChar_append ':' _ _ (fun c hc => isDigit_ne_colon (pad0_all_digits 2 H c hc)),
    splitChar_append ':' _ _ (fun c hc => isDigit_ne_colon (pad0_all_digits 2 M c hc)),
    splitChar_no_sep ':' _ (by
      intro c hc
      rcases List.mem_append.mp hc with h1 | h1
      · exact isDigit_ne_colon (pad0_all_digits 2 S c h1)
      · rcases List.mem_cons.mp h1 with h2 | h2
        · subst h2; decide
        · exact isDigit_ne_colon (pad0_all_digits 3 MS c h2))]
  dsimp only
  rw [parseDecChars_pad0 2 H, parseDecChars_pad0 2 M, parseDecChars_frac S MS h]

theorem roundtrip_thousandths (n : ℕ) :
    srt_to_seconds_chars (seconds_to_srt_time_chars ((n : ℚ) / 1000)) =
      some ((n : ℚ) / 1000) := by
  rw [format_thousandths, parse_mkTs _ _ _ _ (Nat.mod_lt _ (by norm_num))]
  congr 1
  have key : 3600000 * (n / 3600000) + 60000 * (n % 3600000 / 60000) +
      1000 * (n % 60000 / 1000) + n % 1000 = n := by omega
  have hq : (3600000 : ℚ) * ((n / 3600000 : ℕ) : ℚ) +
      60000 * ((n % 3600000 / 60000 : ℕ) : ℚ) +
      1000 * ((n % 60000 / 1000 : ℕ) : ℚ) + ((n % 1000 : ℕ) : ℚ) = (n : ℚ) := by
    exact_mod_cast key
  linear_combination hq / 1000

/-- The formatting/parsing *algorithm* round-trips exactly on exact
millisecond-precision rationals — the idealized decimal semantics the
timestamps are meant to carry: parsing the formatted string returns the
value, and re-formatting the parsed value of any well-formed
`HH:MM:SS,mmm` string reproduces it.  This isolates the drift exhibited
below to the binary floating-point representation of the inputs, not to
the field arithmetic of `caption_generator.py`. -/
theorem exact_decimal_roundtrip :
    (∀ t : ℚ, 0 ≤ t → MsPrec t → srt_to_seconds (seconds_to_srt_time t) = some t) ∧
    (∀ H M S MS : ℕ, M < 60 → S < 60 → MS < 1000 →
      ∃ t : ℚ, srt_to_seconds (mkTsStr H M S MS) = some t ∧
        seconds_to_srt_time t = mkTsStr H M S MS) := by
  constructor
  · rintro t - ⟨n, rfl⟩
    exact roundtrip_thousandths n
  · intro H M S MS hM hS hMS
    refine ⟨(H : ℚ) * 3600 + (M : ℚ) * 60 + ((S : ℚ) + (MS : ℚ) / 1000), ?_, ?_⟩
    · exact parse_mkTs H M S MS hMS
    · have hval : (H : ℚ) * 3600 + (M : ℚ) * 60 + ((S : ℚ) + (MS : ℚ) / 1000) =
          ((3600000 * H + 60000 * M + 1000 * S + MS : ℕ) : ℚ) / 1000 := by
        push_cast
        ring
      rw [hval]
      unfold seconds_to_srt_time mkTsStr
      rw [format_thousandths]
      rw [show (3600000 * H + 60000 * M + 1000 * S + MS) / 3600000 = H by omega,
        show (3600000 * H + 60000 * M + 1000 * S + MS) % 3600000 / 60000 = M by omega,
        show (3600000 * H + 60000 * M + 1000 * S + MS) % 60000 / 1000 = S by omega,
        show (3600000 * H + 60000 * M + 1000 * S + MS) % 1000 = MS by omega]

/-- Kernel evaluation of the formatter at the exact value of the double
`3661.1`: the millisecond field truncates to `099`. -/
theorem fmt_on_double_3661_1 :
    seconds_to_srt_time pyFloat_3661_1 = "01:01:01,099" := by
  with_unfolding_all decide

/-- The double sits strictly below the decimal value `3661.1`. -/
theorem double_3661_1_below_decimal : pyFloat_3661_1 < 36611 / 10 := by
  with_unfolding_all decide

/-- The formatter on the exact decimal `3661.1` gives the expected
string. -/
theorem fmt_on_exact_3661_1 :
    seconds_to_srt_time (36611 / 10) = "01:01:01,100" := by
  have h : (36611 : ℚ) / 10 = ((3661100 : ℕ) : ℚ) / 1000 := by norm_num
  unfold seconds_to_srt_time
  rw [h, format_thousandths]
  rw [show 3661100 / 3600000 = 1 from rfl, show 3661100 % 1000 = 100 from rfl]
  with_unfolding_all decide

/-- Parsing the expected string yields exactly the decimal `3661.1`. -/
theorem parse_of_expected_3661_1 :
    srt_to_seconds "01:01:01,100" = some (36611 / 10) := by
  have h : "01:01:01,100" = mkTsStr 1 1 1 100 := by with_unfolding_all decide
  rw [h]
  unfold srt_to_seconds mkTsStr
  rw [show (String.mk (mkTsChars 1 1 1 100)).data = mkTsChars 1 1 1 100 from rfl]
  rw [parse_mkTs 1 1 1 100 (by norm_num)]
  norm_num

/-- C4: the parse/format round-trip drifts on the program's `float`
values, so the claimed exactness fails in the code as written.
`seconds_to_srt_time` applied to `pyFloat_3661_1` — the IEEE-754 double
CPython stores for `3661.1`, the repository's own test input, on which
every float intermediate is exactly representable so this rational
evaluation reproduces CPython bit for bit — returns `"01:01:01,099"`,
against the `"01:01:01,100"` that `tests/test_caption_generator.py`
asserts: the double sits below the decimal `3661.1`, so
`int((seconds - int(seconds)) * 1000)` truncates the millisecond field
one lower.  On the exact decimal value `36611/10` the same function does
produce the expected string, and parsing that string back yields exactly
`36611/10`: the drift comes solely from representing decimal inputs in
binary floating point (the same truncation hits re-formatting of parsed
timestamps, e.g. `float("02.675")` is below `2.675`). -/
theorem C4_float_truncation_drift :
    seconds_to_srt_time pyFloat_3661_1 = "01:01:01,099" ∧
    pyFloat_3661_1 < 36611 / 10 ∧
    seconds_to_srt_time (36611 / 10) = "01:01:01,100" ∧
    srt_to_seconds "01:01:01,100" = some (36611 / 10) :=
  ⟨fmt_on_double_3661_1, double_3661_1_below_decimal,
   fmt_on_exact_3661_1, parse_of_expected_3661_1⟩

/-! ## Subtitle block structure (`transcript_to_srt`) -/

theorem srtEntryLines_length (i : ℕ) (seg : Segment) :
    (srtEntryLines i seg).length = if pyStripStr seg.text = "" then 0 else 4 := by
  by_cases h : pyStripStr seg.text = "" <;> simp [srtEntryLines, h]

theorem srtLinesFrom_length (t : List Segment) : ∀ i,
    (srtLinesFrom i t).length =
      4 * (t.filter (fun s => !(pyStripStr s.text == ""))).length := by
  induction t with
  | nil => intro i; rfl
  | cons s rest ih =>
      intro i
      simp only [srtLinesFrom, List.length_append, srtEntryLines_length, ih (i + 1),
        List.filter_cons]
      by_cases h : pyStripStr s.text = ""
      · simp [h]
      · simp [h, Nat.mul_succ]
        omega

theorem srtLinesFrom_nodrop (t : List Segment) : ∀ i,
    (∀ seg ∈ t, pyStripStr seg.text ≠ "") →
    ∀ k, k < t.length →
      (srtLinesFrom i t).getD (4 * k) "" = natRepr (i + k) ∧
      (srtLinesFrom i t).getD (4 * k + 1) "" =
        mkTimeLine (t.getD k ⟨0, 0, ""⟩).start (srtEndTime (t.getD k ⟨0, 0, ""⟩)) ∧
      (srtLinesFrom i t).getD (4 * k + 2) "" = pyStripStr (t.getD k ⟨0, 0, ""⟩).text ∧
      (srtLinesFrom i t).getD (4 * k + 3) "" = "" := by
  induction t with
  | nil =>
      intro i h k hk
      exact absurd hk (by simp)
  | cons s rest ih =>
      intro i h k hk
      have hs : pyStripStr s.text ≠ "" := h s (List.mem_cons_self s rest)
      have hentry : srtEntryLines i s =
          [natRepr i, mkTimeLine s.start (srtEndTime s), pyStripStr s.text, ""] := by
        unfold srtEntryLines
        rw [if_neg hs]
      simp only [srtLinesFrom]
      rw [hentry]
      cases k with
      | zero => simp
      | succ k' =>
          have hrest : ∀ seg ∈ rest, pyStripStr seg.text ≠ "" :=
            fun seg hseg => h seg (List.mem_cons_of_mem _ hseg)
          have hk' : k' < rest.length := by
            simp only [List.length_cons] at hk
            omega
          have hih := ih (i + 1) hrest k' hk'
          rw [show 4 * (k' + 1) = 4 * k' + 1 + 1 + 1 + 1 by ring]
          simp only [List.cons_append, List.nil_append, List.getD_cons_succ,
            List.getD_cons_zero]
          rw [show i + (k' + 1) = i + 1 + k' by ring]
          simpa using hih

/-- C5 counterexample: the source enumerates the input transcript with
`enumerate(transcript, start=1)` and keeps counting over dropped segments,
so after an empty-text segment the emitted index lines are not consecutive:
for `[{0,1,"a"}, {1,2," "}, {2,3,"b"}]` the second emitted block (file
offset `4*1`) carries index line `"3"`, not `"2"`. -/
theorem C5_seq_index_counterexample : ¬ seqIndexContract := by
  intro h
  have h4 : 4 * 1 < (srtLines [⟨0, 1, "a"⟩, ⟨1, 2, " "⟩, ⟨2, 3, "b"⟩]).length := by
    with_unfolding_all decide
  have := h [⟨0, 1, "a"⟩, ⟨1, 2, " "⟩, ⟨2, 3, "b"⟩] 1 h4
  exact absurd this (by with_unfolding_all decide)

/-- C5 (amended): the emitted file consists of four-line blocks — index
line, `HH:MM:SS,mmm --> HH:MM:SS,mmm` line, text line, blank separator —
where the index line carries the segment's 1-based position in the input
transcript; the indices are the consecutive integers starting at 1
whenever no segment is dropped (a dropped empty-text segment leaves a gap
in the numbering). -/
theorem C5_block_shape_amended : ∀ (t : List Segment),
    (∀ seg ∈ t, pyStripStr seg.text ≠ "") →
    (srtLines t).length = 4 * t.length ∧
    ∀ k, k < t.length →
      (srtLines t).getD (4 * k) "" = natRepr (k + 1) ∧
      (srtLines t).getD (4 * k + 1) "" =
        mkTimeLine (t.getD k ⟨0, 0, ""⟩).start (srtEndTime (t.getD k ⟨0, 0, ""⟩)) ∧
      (srtLines t).getD (4 * k + 2) "" = pyStripStr (t.getD k ⟨0, 0, ""⟩).text ∧
      (srtLines t).getD (4 * k + 3) "" = "" := by
  intro t h
  constructor
  · show (srtLinesFrom 1 t).length = 4 * t.length
    rw [srtLinesFrom_length t 1]
    congr 1
    rw [List.filter_eq_self.mpr]
    intro s hs
    simpa using h s hs
  · intro k hk
    have := srtLinesFrom_nodrop t 1 h k hk
    rwa [show 1 + k = k + 1 by ring] at this

/-- Witness for the amended C5 at the spec's own example transcript
`[{0.0, 2.5, "Hello world"}, {2.5, 5.0, "This is a test"}]`. -/
theorem C5_block_shape_amended_witness :
    (srtLines [⟨0, 5 / 2, "Hello world"⟩, ⟨5 / 2, 5, "This is a test"⟩]).getD (4 * 1) "" =
        natRepr (1 + 1) ∧
    (srtLines [⟨0, 5 / 2, "Hello world"⟩, ⟨5 / 2, 5, "This is a test"⟩]).getD (4 * 1 + 3) "" =
        "" :=
  ⟨(((C5_block_shape_amended [⟨0, 5 / 2, "Hello world"⟩, ⟨5 / 2, 5, "This is a test"⟩]
      (by with_unfolding_all decide)).2 1 (by norm_num)).1),
   (((C5_block_shape_amended [⟨0, 5 / 2, "Hello world"⟩, ⟨5 / 2, 5, "This is a test"⟩]
      (by with_unfolding_all decide)).2 1 (by norm_num)).2.2.2)⟩

/-- C6: in `transcript_to_srt` every segment whose post-strip text is empty
is dropped and contributes no block (so the file's line count is four times
the number of retained segments), and every retained segment with
`end <= start` gets its block's end timestamp formatted from
`start + 1.5`. -/
theorem C6_drop_empty_fix_end :
    (∀ t : List Segment,
      (srtLines t).length = 4 * (t.filter (fun s => !(pyStripStr s.text == ""))).length) ∧
    (∀ (i : ℕ) (seg : Segment), pyStripStr seg.text = "" → srtEntryLines i seg = []) ∧
    (∀ (i : ℕ) (seg : Segment), pyStripStr seg.text ≠ "" → seg.end_ ≤ seg.start →
      srtEntryLines i seg =
        [natRepr i, mkTimeLine seg.start (seg.start + 3 / 2), pyStripStr seg.text, ""]) := by
  refine ⟨fun t => srtLinesFrom_length t 1, ?_, ?_⟩
  · intro i seg h
    unfold srtEntryLines
    rw [if_pos h]
  · intro i seg h hle
    unfold srtEntryLines
    rw [if_neg h]
    unfold srtEndTime
    rw [if_pos hle]

/-- Witness for C6: an empty-text segment contributes nothing, and a
degenerate segment `{1.0, 1.0, "hi"}` is formatted with end `2.5`. -/
theorem C6_drop_empty_fix_end_witness :
    (srtLines [⟨0, 1, "a"⟩, ⟨1, 2, "  "⟩]).length =
        4 * (([⟨0, 1, "a"⟩, ⟨1, 2, "  "⟩] : List Segment).filter
          (fun s => !(pyStripStr s.text == ""))).length ∧
    srtEntryLines 2 ⟨1, 2, "  "⟩ = [] ∧
    srtEntryLines 1 ⟨1, 1, "hi"⟩ =
      [natRepr 1, mkTimeLine 1 (1 + 3 / 2), pyStripStr "hi", ""] :=
  ⟨C6_drop_empty_fix_end.1 [⟨0, 1, "a"⟩, ⟨1, 2, "  "⟩],
   C6_drop_empty_fix_end.2.1 2 ⟨1, 2, "  "⟩ (by with_unfolding_all decide),
   C6_drop_empty_fix_end.2.2 1 ⟨1, 1, "hi"⟩ (by with_unfolding_all decide) (by norm_num)⟩

/-! ## Trim-offset adjustment, window clamping, size fitting -/

/-- C8: before conversion to a caption file the orchestrator reduces each
segment's start and end by the trim-start offset, drops entirely every
segment whose shifted end is not positive, and clamps remaining negative
shifted times to 0 — so the loop equals a filter (`0 < end - trim`)
followed by a clamped shift; in particular `{5.0, 7.5, "Trimmed start"}`
with trim start `5.0` becomes `{0.0, 2.5, "Trimmed start"}`. -/
theorem C8_trim_adjustment :
    (∀ (t : List Segment) (off : ℚ),
      adjustTranscript t off =
        (t.filter (fun s => decide (0 < s.end_ - off))).map
          (fun s => ⟨max 0 (s.start - off), max 0 (s.end_ - off), s.text⟩)) ∧
    adjustTranscript [⟨5, 15 / 2, "Trimmed start"⟩] 5 = [⟨0, 5 / 2, "Trimmed start"⟩] := by
  constructor
  · intro t off
    induction t with
    | nil => rfl
    | cons s rest ih =>
        simp only [adjustTranscript, List.filter_cons]
        by_cases h : 0 < s.end_ - off
        · rw [if_pos h]
          simp only [decide_eq_true h, if_pos]
          rw [List.map_cons, ih]
        · rw [if_neg h]
          simp only [decide_eq_false h, if_neg]
          rw [ih]
          simp
  · with_unfolding_all decide

/-- C10: the analysis adapter clamps `trim_end` above by the source
duration (and `trim_start` below by 0), and whenever the clamped window is
shorter than 5 seconds it substitutes the default window
`[0, min(duration, 60)]`; e.g. `trim_start=58, trim_end=60, duration=120`
yields `[0, 60]`. -/
theorem C10_window_clamp :
    (∀ a b d : ℚ, (analyze_clamp_window a b d).2 ≤ d) ∧
    (∀ a b d : ℚ, min d b - max 0 a < 5 → analyze_clamp_window a b d = (0, min d 60)) ∧
    (∀ a b d : ℚ, ¬(min d b - max 0 a < 5) →
      analyze_clamp_window a b d = (max 0 a, min d b)) ∧
    analyze_clamp_window 58 60 120 = (0, 60) := by
  refine ⟨?_, ?_, ?_, ?_⟩
  · intro a b d
    unfold analyze_clamp_window
    by_cases h : min d b - max 0 a < 5
    · rw [if_pos h]
      exact min_le_left d 60
    · rw [if_neg h]
      exact min_le_left d b
  · intro a b d h
    unfold analyze_clamp_window
    rw [if_pos h]
  · intro a b d h
    unfold analyze_clamp_window
    rw [if_neg h]
  · with_unfolding_all decide

/-- Witness for C10 at the spec's scenario `trim_start=58, trim_end=60,
duration=120`. -/
theorem C10_window_clamp_witness :
    (analyze_clamp_window 58 60 120).2 ≤ 120 ∧
    analyze_clamp_window 58 60 120 = (0, min 120 60) :=
  ⟨C10_window_clamp.1 58 60 120,
   C10_window_clamp.2.1 58 60 120 (by norm_num)⟩

/-- C9: when the rendered output exceeds the size budget, the re-encode
target video bitrate in kbps is `floor(max_mb * 8 * 1024 / duration)`
(e.g. 1024 for `max_mb = 10`, `duration = 80`), the encoder buffer is
sized at exactly double that rate, and the oversized original is removed
and replaced by the re-encoded file's path. -/
theorem C9_size_budget :
    (∀ (p : String) (max_mb : ℤ) (duration : ℚ), 0 ≤ max_mb → 0 < duration →
      (compress_video p max_mb duration).video_bitrate =
          ⌊((max_mb * 8 * 1024 : ℤ) : ℚ) / duration⌋ ∧
      (compress_video p max_mb duration).bufsize =
          2 * (compress_video p max_mb duration).video_bitrate ∧
      (compress_video p max_mb duration).removed_path = p ∧
      ∀ size_mb : ℚ, size_mb > (max_mb : ℚ) →
        edit_video_final_path p size_mb max_mb duration =
          (compress_video p max_mb duration).returned_path) ∧
    compress_target_bitrate 10 80 = 1024 := by
  constructor
  · intro p max_mb duration hm hd
    refine ⟨?_, ?_, rfl, ?_⟩
    · show compress_target_bitrate max_mb duration = _
      unfold compress_target_bitrate pyInt
      rw [if_pos (by
        apply div_nonneg
        · have h1 : (0 : ℤ) ≤ max_mb * 8 * 1024 := by omega
          exact_mod_cast h1
        · exact le_of_lt hd)]
    · show compress_target_bitrate max_mb duration * 2 =
        2 * compress_target_bitrate max_mb duration
      ring
    · intro size_mb hs
      unfold edit_video_final_path
      rw [if_pos hs]
  · with_unfolding_all decide

/-- Witness for C9 at the spec's figures `max_mb = 10`, `duration = 80`,
with a 12 MB rendered output. -/
theorem C9_size_budget_witness :
    (compress_video "./data/output/clip_edited.mp4" 10 80).video_bitrate =
        ⌊((10 * 8 * 1024 : ℤ) : ℚ) / 80⌋ ∧
    (compress_video "./data/output/clip_edited.mp4" 10 80).bufsize =
        2 * (compress_video "./data/output/clip_edited.mp4" 10 80).video_bitrate ∧
    (compress_video "./data/output/clip_edited.mp4" 10 80).removed_path =
        "./data/output/clip_edited.mp4" ∧
    edit_video_final_path "./data/output/clip_edited.mp4" 12 10 80 =
        (compress_video "./data/output/clip_edited.mp4" 10 80).returned_path :=
  have h := C9_size_budget.1 "./data/output/clip_edited.mp4" 10 80 (by norm_num) (by norm_num)
  ⟨h.1, h.2.1, h.2.2.1, h.2.2.2 12 (by norm_num)⟩

/-! ## Splitting on the timestamp-line separator -/

theorem startsWith_self_append (p r : List Char) : startsWithChars p (p ++ r) = true := by
  induction p with
  | nil => rfl
  | cons c cs ih => simp [startsWithChars, ih]

theorem hasSub_middle (c0 : Char) (pr x y : List Char) :
    hasSubSeq (c0 :: pr) (x ++ ((c0 :: pr) ++ y)) = true := by
  induction x with
  | nil =>
      show hasSubSeq (c0 :: pr) ((c0 :: pr) ++ y) = true
      rw [show (c0 :: pr) ++ y = c0 :: (pr ++ y) from rfl]
      unfold hasSubSeq
      rw [show c0 :: (pr ++ y) = (c0 :: pr) ++ y from rfl, startsWith_self_append]
      simp
  | cons c t ih =>
      show hasSubSeq (c0 :: pr) (c :: (t ++ ((c0 :: pr) ++ y))) = true
      unfold hasSubSeq
      rw [ih]
      simp

theorem splitOnSeqF_cons (pat : List Char) (f : ℕ) (c : Char) (t acc : List Char) :
    splitOnSeqF pat (f + 1) (c :: t) acc =
      if startsWithChars pat (c :: t) then
        acc.reverse :: splitOnSeqF pat f ((c :: t).drop pat.length) []
      else splitOnSeqF pat f t (c :: acc) := rfl

theorem splitOnSeqF_no_occ (c0 : Char) (pr : List Char) :
    ∀ (l : List Char) (fuel : ℕ) (acc : List Char), l.length < fuel →
      (∀ ch ∈ l, ch ≠ c0) →
      splitOnSeqF (c0 :: pr) fuel l acc = [acc.reverse ++ l] := by
  intro l
  induction l with
  | nil =>
      intro fuel acc hf _
      match fuel, hf with
      | f + 1, _ => simp [splitOnSeqF]
  | cons c t ih =>
      intro fuel acc hf h
      match fuel, hf with
      | f + 1, hf =>
          have hc : c ≠ c0 := h c (List.mem_cons_self c t)
          show splitOnSeqF (c0 :: pr) (f + 1) (c :: t) acc = _
          unfold splitOnSeqF
          rw [show startsWithChars (c0 :: pr) (c :: t) = (decide (c0 = c) && startsWithChars pr t)
            from rfl]
          rw [decide_eq_false (fun hq => hc hq.symm)]
          simp only [Bool.false_and, Bool.false_eq_true, if_false]
          rw [ih f (c :: acc) (by simp at hf ⊢; omega)
            (fun x hx => h x (List.mem_cons_of_mem _ hx))]
          simp

theorem splitOnSeqF_skip (c0 : Char) (pr : List Char) :
    ∀ (a : List Char) (fuel : ℕ) (acc rest : List Char),
      (∀ ch ∈ a, ch ≠ c0) →
      splitOnSeqF (c0 :: pr) (a.length + fuel) (a ++ rest) acc =
        splitOnSeqF (c0 :: pr) fuel rest (a.reverse ++ acc) := by
  intro a
  induction a with
  | nil => intro fuel acc rest _; simp
  | cons c t ih =>
      intro fuel acc rest h
      have hc : c ≠ c0 := h c (List.mem_cons_self c t)
      rw [show (c :: t).length + fuel = (t.length + fuel) + 1 by simp; ring]
      show splitOnSeqF (c0 :: pr) ((t.length + fuel) + 1) (c :: (t ++ rest)) acc = _
      rw [splitOnSeqF_cons]
      rw [show startsWithChars (c0 :: pr) (c :: (t ++ rest)) =
          (decide (c0 = c) && startsWithChars pr (t ++ rest)) from rfl]
      rw [decide_eq_false (fun hq => hc hq.symm)]
      simp only [Bool.false_and, Bool.false_eq_true, if_false]
      rw [ih fuel (c :: acc) rest (fun x hx => h x (List.mem_cons_of_mem _ hx))]
      simp

theorem splitOnSeqF_at_match (c0 : Char) (pr y : List Char) (f : ℕ) (acc : List Char) :
    splitOnSeqF (c0 :: pr) (f + 1) ((c0 :: pr) ++ y) acc =
      acc.reverse :: splitOnSeqF (c0 :: pr) f y [] := by
  show splitOnSeqF (c0 :: pr) (f + 1) (c0 :: (pr ++ y)) acc = _
  rw [splitOnSeqF_cons]
  rw [show c0 :: (pr ++ y) = (c0 :: pr) ++ y from rfl, startsWith_self_append]
  rw [if_pos rfl]
  rw [show ((c0 :: pr) ++ y).drop (c0 :: pr).length = y from List.drop_left _ _]

theorem splitOnSeq_middle (c0 : Char) (pr x y : List Char)
    (hx : ∀ ch ∈ x, ch ≠ c0) (hy : ∀ ch ∈ y, ch ≠ c0) :
    splitOnSeq (c0 :: pr) (x ++ ((c0 :: pr) ++ y)) = [x, y] := by
  unfold splitOnSeq
  rw [show (x ++ ((c0 :: pr) ++ y)).length + 1 =
      x.length + ((c0 :: pr).length + y.length + 1) by simp [List.length_append]; ring]
  rw [splitOnSeqF_skip c0 pr x ((c0 :: pr).length + y.length + 1) [] ((c0 :: pr) ++ y) hx]
  rw [show (c0 :: pr).length + y.length + 1 = (pr.length + y.length + 1) + 1 by simp; ring]
  rw [splitOnSeqF_at_match]
  rw [splitOnSeqF_no_occ c0 pr y (pr.length + y.length + 1) [] (by omega) hy]
  simp

/-! ## Shifting timestamp lines (`adjust_srt_timing`) -/

theorem string_eq_of_data (s : String) (l : List Char) (h : s.data = l) : s = ⟨l⟩ := by
  cases s
  cases h
  rfl

theorem mkTimeLine_data (a b : ℚ) :
    (mkTimeLine a b).data =
      seconds_to_srt_time_chars a ++ (arrowChars ++ seconds_to_srt_time_chars b) := by
  show (seconds_to_srt_time a ++ " --> " ++ seconds_to_srt_time b).data = _
  rw [String.data_append, String.data_append]
  rw [show " --> ".data = arrowChars by rfl]
  rw [List.append_assoc]
  rfl

theorem fmt_no_space (t : ℚ) (h : MsPrec t) :
    ∀ ch ∈ seconds_to_srt_time_chars t, ch ≠ ' ' := by
  obtain ⟨n, rfl⟩ := h
  rw [format_thousandths]
  intro ch hch hsp
  have := mkTsChars_no_space _ _ _ _ ch hch
  subst hsp
  exact absurd this (by decide)

theorem roundtrip_msprec (t : ℚ) (h : MsPrec t) :
    srt_to_seconds_chars (seconds_to_srt_time_chars t) = some t := by
  obtain ⟨n, rfl⟩ := h
  exact roundtrip_thousandths n

theorem shiftLine_no_arrow (off : ℚ) (line : String)
    (h : hasSubSeq arrowChars line.data = false) : shiftLine off line = some line := by
  unfold shiftLine
  rw [if_neg (by simp [h])]

theorem shiftLine_valid (off a b : ℚ) (ha : MsPrec a) (hb : MsPrec b) :
    shiftLine off (mkTimeLine a b) =
      some (mkTimeLine (max 0 (a - off)) (max 0 (b - off))) := by
  unfold shiftLine
  rw [mkTimeLine_data a b]
  rw [show arrowChars = ' ' :: ['-', '-', '>', ' '] from rfl]
  rw [if_pos (hasSub_middle ' ' ['-', '-', '>', ' '] _ _)]
  rw [splitOnSeq_middle ' ' ['-', '-', '>', ' '] _ _
    (fmt_no_space a ha) (fmt_no_space b hb)]
  dsimp only
  rw [roundtrip_msprec a ha, roundtrip_msprec b hb]
  dsimp only
  congr 1
  exact (string_eq_of_data _ _ (mkTimeLine_data _ _)).symm

theorem shiftLines_ok (off : ℚ) : ∀ (lines : List String),
    (∀ l ∈ lines, hasSubSeq arrowChars l.data = false ∨
      ∃ a b : ℚ, l = mkTimeLine a b ∧ MsPrec a ∧ MsPrec b) →
    ∃ res, shiftLines off lines = some res ∧ res.length = lines.length ∧
      ∀ k, k < lines.length → shiftLine off (lines.getD k "") = some (res.getD k "") := by
  intro lines
  induction lines with
  | nil =>
      intro _
      exact ⟨[], rfl, rfl, by intro k hk; exact absurd hk (by simp)⟩
  | cons l t ih =>
      intro h
      obtain ⟨l', hl'⟩ : ∃ l', shiftLine off l = some l' := by
        rcases h l (List.mem_cons_self l t) with h1 | ⟨a, b, rfl, ha, hb⟩
        · exact ⟨l, shiftLine_no_arrow off l h1⟩
        · exact ⟨_, shiftLine_valid off a b ha hb⟩
      obtain ⟨res', h1, h2, h3⟩ := ih (fun x hx => h x (List.mem_cons_of_mem _ hx))
      refine ⟨l' :: res', ?_, by simp [h2], ?_⟩
      · show (match shiftLine off l with
              | none => none
              | some l2 => (shiftLines off t).map (l2 :: ·)) = some (l' :: res')
        rw [hl', h1]
        rfl
      · intro k hk
        cases k with
        | zero => simpa using hl'
        | succ k' =>
            simp only [List.getD_cons_succ]
            exact h3 k' (by simp at hk; omega)

/-- C7: `adjust_srt_timing` with a zero offset is a no-op that leaves the
file untouched; with any offset, over a caption file (each line either
contains no `" --> "` and passes through unchanged, or is a well-formed
timestamp line), it rewrites each timestamp line by subtracting the offset
from both endpoints and clamping each result at zero — so no output
timestamp is negative — while every non-timestamp line is unchanged. -/
theorem C7_shift_captions : ∀ (lines : List String) (off : ℚ),
    (∀ l ∈ lines, hasSubSeq arrowChars l.data = false ∨
      ∃ a b : ℚ, l = mkTimeLine a b ∧ MsPrec a ∧ MsPrec b) →
    adjust_srt_timing off lines ≠ none ∧
    (off = 0 → adjust_srt_timing off lines = some lines) ∧
    ∀ res, adjust_srt_timing off lines = some res →
      res.length = lines.length ∧
      ∀ k, k < lines.length →
        (hasSubSeq arrowChars (lines.getD k "").data = false →
          res.getD k "" = lines.getD k "") ∧
        (∀ a b : ℚ, lines.getD k "" = mkTimeLine a b → MsPrec a → MsPrec b →
          res.getD k "" = mkTimeLine (max 0 (a - off)) (max 0 (b - off)) ∧
          0 ≤ max 0 (a - off) ∧ 0 ≤ max 0 (b - off)) := by
  intro lines off hW
  by_cases hoff : off = 0
  · subst hoff
    have hadj : adjust_srt_timing 0 lines = some lines := by
      unfold adjust_srt_timing
      rw [if_pos rfl]
    refine ⟨by simp [hadj], fun _ => hadj, ?_⟩
    intro res hres
    rw [hadj] at hres
    have hres' : lines = res := Option.some.inj hres
    subst hres'
    refine ⟨rfl, ?_⟩
    intro k hk
    constructor
    · intro _
      rfl
    · intro a b heq ha hb
      refine ⟨?_, le_max_left 0 _, le_max_left 0 _⟩
      rw [heq]
      obtain ⟨n, rfl⟩ := ha
      obtain ⟨m, rfl⟩ := hb
      rw [sub_zero, sub_zero, max_eq_right (by positivity), max_eq_right (by positivity)]
  · have hadj : adjust_srt_timing off lines = shiftLines off lines := by
      unfold adjust_srt_timing
      rw [if_neg hoff]
    obtain ⟨res0, h1, h2, h3⟩ := shiftLines_ok off lines hW
    refine ⟨by rw [hadj, h1]; simp, fun h0 => absurd h0 hoff, ?_⟩
    intro res hres
    rw [hadj, h1] at hres
    have hres' : res0 = res := Option.some.inj hres
    subst hres'
    refine ⟨h2, ?_⟩
    intro k hk
    constructor
    · intro hna
      have hpt := h3 k hk
      rw [shiftLine_no_arrow off _ hna] at hpt
      exact (Option.some.inj hpt).symm
    · intro a b heq ha hb
      have hpt := h3 k hk
      rw [heq, shiftLine_valid off a b ha hb] at hpt
      exact ⟨(Option.some.inj hpt).symm, le_max_left 0 _, le_max_left 0 _⟩

/-- Witness for C7 at the test suite's scenario: the caption file for
segment `{5.0, 7.5, "Trimmed start"}` shifted by offset `5.0`. -/
theorem C7_shift_captions_witness :
    adjust_srt_timing 5 ["1", "00:00:05,000 --> 00:00:07,500", "Trimmed start", ""] ≠ none ∧
    (["1", "00:00:00,000 --> 00:00:02,500", "Trimmed start", ""] : List String).getD 1 "" =
      mkTimeLine (max 0 (5 - 5)) (max 0 (15 / 2 - 5)) ∧
    (["1", "00:00:00,000 --> 00:00:02,500", "Trimmed start", ""] : List String).getD 2 "" =
      (["1", "00:00:05,000 --> 00:00:07,500", "Trimmed start", ""] : List String).getD 2 "" := by
  have hW : ∀ l ∈ (["1", "00:00:05,000 --> 00:00:07,500", "Trimmed start", ""] : List String),
      hasSubSeq arrowChars l.data = false ∨
      ∃ a b : ℚ, l = mkTimeLine a b ∧ MsPrec a ∧ MsPrec b := by
    intro l hl
    simp only [List.mem_cons, List.not_mem_nil, or_false] at hl
    rcases hl with rfl | rfl | rfl | rfl
    · left; with_unfolding_all decide
    · right
      exact ⟨5, 15 / 2, by with_unfolding_all decide,
        ⟨5000, by norm_num⟩, ⟨7500, by norm_num⟩⟩
    · left; with_unfolding_all decide
    · left; with_unfolding_all decide
  have h := C7_shift_captions ["1", "00:00:05,000 --> 00:00:07,500", "Trimmed start", ""] 5 hW
  have hres := h.2.2 ["1", "00:00:00,000 --> 00:00:02,500", "Trimmed start", ""]
    (by with_unfolding_all decide)
  refine ⟨h.1, ?_, ?_⟩
  · exact ((hres.2 1 (by norm_num)).2 5 (15 / 2) (by with_unfolding_all decide)
      ⟨5000, by norm_num⟩ ⟨7500, by norm_num⟩).1
  · exact (hres.2 2 (by norm_num)).1 (by with_unfolding_all decide)

/-! ## Retry gating (`retry_job`) -/

/-- C2: `retry_job` on a nonexistent job id reports `false` to the caller
with the store unchanged; on a job whose status is not exactly `failed` it
is rejected (`false`) with the store unchanged; and only a `failed` job
re-enters the processing chain, with its error field cleared before
processing starts (here for a job whose local file is still present, so no
re-download happens). -/
theorem C2_retry_gate : ∀ (env : Env) (job_id : ℕ) (s : Store),
    (get_job_by_id job_id s = none → retry_job env job_id s = Except.ok (false, s)) ∧
    (∀ job : VideoJob, get_job_by_id job_id s = some job → job.status ≠ "failed" →
      retry_job env job_id s = Except.ok (false, s)) ∧
    (∀ (job : VideoJob) (p : String), get_job_by_id job_id s = some job →
      job.status = "failed" → job.local_path = some p → p ≠ "" →
      env.fileExists p = true →
      retry_job env job_id s =
        Except.ok (true, (process_job env { job with error := none } s).2)) := by
  intro env job_id s
  refine ⟨?_, ?_, ?_⟩
  · intro h
    unfold retry_job
    rw [h]
  · intro job hj hst
    unfold retry_job
    rw [hj]
    dsimp only
    rw [if_neg hst]
  · intro job p hj hst hp hpne hex
    unfold retry_job
    rw [hj]
    dsimp only
    rw [if_pos hst]
    have hcond : (match ({ job with error := none } : VideoJob).local_path with
        | none => true
        | some q => q = "" || !(env.fileExists q)) = false := by
      show (match job.local_path with
        | none => true
        | some q => q = "" || !(env.fileExists q)) = false
      rw [hp]
      simp [hpne, hex]
    rw [hcond]
    simp

/-- Witness for C2: retry of an unknown id (3) and of a `done` job (2) are
rejected with the store unchanged; retry of the `failed` job (1) re-enters
processing with its error cleared. -/
theorem C2_retry_gate_witness :
    retry_job envAllOk 3 storeRetry = Except.ok (false, storeRetry) ∧
    retry_job envAllOk 2 storeRetry = Except.ok (false, storeRetry) ∧
    retry_job envAllOk 1 storeRetry = Except.ok (true,
      (process_job envAllOk { jobFailedF1 with error := none } storeRetry).2) :=
  ⟨(C2_retry_gate envAllOk 3 storeRetry).1 (by with_unfolding_all decide),
   (C2_retry_gate envAllOk 2 storeRetry).2.1 jobDoneF2
     (by with_unfolding_all decide) (by with_unfolding_all decide),
   (C2_retry_gate envAllOk 1 storeRetry).2.2 jobFailedF1 "./data/downloads/clip.mp4"
     (by with_unfolding_all decide) (by with_unfolding_all decide)
     (by with_unfolding_all decide) (by with_unfolding_all decide)
     (by with_unfolding_all decide)⟩

/-! ## Job-count accounting for the scan loop -/

theorem countByDrive_eq_zero (d : String) (s : Store) :
    countByDrive d s = 0 ↔ ∀ j ∈ s, ¬(j.drive_file_id = d) := by
  unfold countByDrive
  rw [List.length_eq_zero, List.filter_eq_nil_iff]
  simp

theorem any_drive_iff (d : String) (s : Store) :
    List.any s (fun x => x.drive_file_id = d) = true ↔ countByDrive d s ≠ 0 := by
  rw [List.any_eq_true, Ne, countByDrive_eq_zero]
  push_neg
  simp

theorem isNone_drive_iff (d : String) (s : Store) :
    (get_job_by_drive_id d s).isNone = true ↔ countByDrive d s = 0 := by
  unfold get_job_by_drive_id
  rw [Option.isNone_iff_eq_none, List.find?_eq_none, countByDrive_eq_zero]
  simp

theorem countByDrive_append_single (d : String) (s : Store) (j : VideoJob) :
    countByDrive d (s ++ [j]) =
      countByDrive d s + (if j.drive_file_id = d then 1 else 0) := by
  unfold countByDrive
  rw [List.filter_append]
  by_cases h : j.drive_file_id = d <;> simp [h]

theorem filter_length_map_congr (f : VideoJob → VideoJob) (p : VideoJob → Bool) :
    ∀ s : List VideoJob, (∀ x ∈ s, p (f x) = p x) →
      (List.filter p (s.map f)).length = (List.filter p s).length := by
  intro s
  induction s with
  | nil => intro _; rfl
  | cons x t ih =>
      intro h
      rw [List.map_cons, List.filter_cons, List.filter_cons,
        h x (List.mem_cons_self x t)]
      by_cases hp : p x = true
      · rw [if_pos hp, if_pos hp]
        simp [ih (fun y hy => h y (List.mem_cons_of_mem _ hy))]
      · rw [if_neg hp, if_neg hp]
        exact ih (fun y hy => h y (List.mem_cons_of_mem _ hy))

theorem self_mem_save (j : VideoJob) (s : Store) : j ∈ save_job j s := by
  unfold save_job
  split
  · rename_i h
    obtain ⟨x, hx, hid⟩ := List.any_eq_true.mp h
    exact List.mem_map.mpr ⟨x, hx, by rw [if_pos (of_decide_eq_true hid)]⟩
  · exact List.mem_append.mpr (Or.inr (List.mem_singleton.mpr rfl))

theorem count_save_step (j j' : VideoJob) (s : Store) (d : String)
    (hid : j'.id = j.id) (hdrv : j'.drive_file_id = j.drive_file_id)
    (hmem : ∃ x ∈ s, x.id = j.id)
    (hdr : ∀ x ∈ s, x.id = j.id → x.drive_file_id = j.drive_file_id) :
    countByDrive d (save_job j' s) = countByDrive d s ∧
    (∃ x ∈ save_job j' s, x.id = j'.id) ∧
    (∀ x ∈ save_job j' s, x.id = j'.id → x.drive_file_id = j'.drive_file_id) := by
  have hany : List.any s (fun x => x.id = j'.id) = true := by
    obtain ⟨x, hx, hxid⟩ := hmem
    exact List.any_eq_true.mpr ⟨x, hx, by rw [hid]; exact decide_eq_true hxid⟩
  refine ⟨?_, ⟨j', self_mem_save j' s, rfl⟩, ?_⟩
  · show countByDrive d (save_job j' s) = countByDrive d s
    unfold save_job countByDrive
    rw [if_pos hany]
    apply filter_length_map_congr
    intro x hx
    by_cases hxe : x.id = j'.id
    · rw [if_pos hxe]
      have : x.drive_file_id = j'.drive_file_id := by
        rw [hdrv]
        exact hdr x hx (hid ▸ hxe)
      simp [this]
    · rw [if_neg hxe]
  · intro x hx hxid
    unfold save_job at hx
    rw [if_pos hany] at hx
    obtain ⟨y, hy, rfl⟩ := List.mem_map.mp hx
    by_cases hye : y.id = j'.id
    · rw [if_pos hye]
    · rw [if_neg hye] at hxid ⊢
      exact absurd hxid hye

theorem job_fail_count (j : VideoJob) (s : Store) (e : String) (d : String)
    (hmem : ∃ x ∈ s, x.id = j.id)
    (hdr : ∀ x ∈ s, x.id = j.id → x.drive_file_id = j.drive_file_id) :
    countByDrive d (job_fail j s e).2 = countByDrive d s :=
  (count_save_step j (setStatus j "failed" (some e)) s d rfl rfl hmem hdr).1

theorem post_step_count (env : Env) (analysis : AnalysisResult) (ep : String)
    (j : VideoJob) (s : Store) (d : String)
    (hmem : ∃ x ∈ s, x.id = j.id)
    (hdr : ∀ x ∈ s, x.id = j.id → x.drive_file_id = j.drive_file_id) :
    countByDrive d (post_step env analysis ep j s).2 = countByDrive d s := by
  unfold post_step
  dsimp only
  obtain ⟨hc6, hm6, hd6⟩ :=
    count_save_step j (setStatus j "posting" none) s d rfl rfl hmem hdr
  cases env.post ep analysis.suggested_caption analysis.hashtags with
  | error e =>
      dsimp only
      rw [job_fail_count _ _ _ _ hm6 hd6, hc6]
  | ok post_id =>
      dsimp only
      rw [(count_save_step (setStatus j "posting" none)
        (setStatus { setStatus j "posting" none with postiz_post_id := some post_id }
          "done" none)
        (save_job (setStatus j "posting" none) s) d rfl rfl hm6 hd6).1, hc6]

theorem edit_step_count (env : Env) (analysis : AnalysisResult)
    (srt_result : Option String) (stem : String) (j : VideoJob) (s : Store) (d : String)
    (hmem : ∃ x ∈ s, x.id = j.id)
    (hdr : ∀ x ∈ s, x.id = j.id → x.drive_file_id = j.drive_file_id) :
    countByDrive d (edit_step env analysis srt_result stem j s).2 = countByDrive d s := by
  unfold edit_step
  dsimp only
  obtain ⟨hc4, hm4, hd4⟩ :=
    count_save_step j (setStatus j "editing" none) s d rfl rfl hmem hdr
  cases env.edit (setStatus j "editing" none).local_path analysis srt_result
      (outputDir ++ "/" ++ stem ++ "_edited.mp4") with
  | error e =>
      dsimp only
      rw [job_fail_count _ _ _ _ hm4 hd4, hc4]
  | ok edited_path =>
      dsimp only
      obtain ⟨hc5, hm5, hd5⟩ := count_save_step (setStatus j "editing" none)
        { setStatus j "editing" none with output_path := some edited_path }
        (save_job (setStatus j "editing" none) s) d rfl rfl hm4 hd4
      rw [post_step_count _ _ _ _ _ _ hm5 hd5, hc5, hc4]

theorem caption_step_count (env : Env) (analysis : AnalysisResult)
    (j : VideoJob) (s : Store) (d : String)
    (hmem : ∃ x ∈ s, x.id = j.id)
    (hdr : ∀ x ∈ s, x.id = j.id → x.drive_file_id = j.drive_file_id) :
    countByDrive d (caption_step env analysis j s).2 = countByDrive d s := by
  unfold caption_step
  dsimp only
  obtain ⟨hc3, hm3, hd3⟩ := count_save_step j
    { j with captions_path :=
        if analysis.transcript ≠ [] then
          (transcript_to_srt
            (adjustTranscript analysis.transcript analysis.trim_start_sec)
            (captionsDir ++ "/" ++ pathStem j.file_name ++ ".srt")).map Prod.fst
        else none }
    s d rfl rfl hmem hdr
  rw [edit_step_count _ _ _ _ _ _ _ hm3 hd3, hc3]

theorem process_job_count (env : Env) (j : VideoJob) (s : Store) (d : String)
    (hmem : ∃ x ∈ s, x.id = j.id)
    (hdr : ∀ x ∈ s, x.id = j.id → x.drive_file_id = j.drive_file_id) :
    countByDrive d (process_job env j s).2 = countByDrive d s := by
  unfold process_job
  dsimp only
  obtain ⟨hc1, hm1, hd1⟩ :=
    count_save_step j (setStatus j "analyzing" none) s d rfl rfl hmem hdr
  cases env.analyze (setStatus j "analyzing" none).local_path with
  | error e =>
      dsimp only
      rw [job_fail_count _ _ _ _ hm1 hd1, hc1]
  | ok analysis =>
      dsimp only
      obtain ⟨hc2, hm2, hd2⟩ := count_save_step (setStatus j "analyzing" none)
        { setStatus j "analyzing" none with
            suggested_caption := some analysis.suggested_caption
            hashtags := some (String.intercalate "," analysis.hashtags)
            hook_text := some analysis.hook_text }
        (save_job (setStatus j "analyzing" none) s) d rfl rfl hm1 hd1
      rw [caption_step_count _ _ _ _ _ hm2 hd2, hc2, hc1]

theorem id_le_fold : ∀ (s : Store) (x : VideoJob), x ∈ s →
    x.id ≤ (List.map VideoJob.id s).foldr max 0 := by
  intro s
  induction s with
  | nil => intro x hx; exact absurd hx (List.not_mem_nil x)
  | cons y t ih =>
      intro x hx
      rw [List.map_cons, List.foldr_cons]
      rcases List.mem_cons.mp hx with rfl | h1
      · exact le_max_left _ _
      · exact le_trans (ih x h1) (le_max_right _ _)

theorem mem_id_ne_nextId (s : Store) (x : VideoJob) (hx : x ∈ s) : x.id ≠ nextId s := by
  have := id_le_fold s x hx
  unfold nextId
  omega

theorem scanItem_existing (env : Env) (f : DriveFile) (s : Store)
    (h : countByDrive f.id s ≠ 0) : scanItem env s f = s := by
  unfold scanItem create_and_download_job insert_job
  rw [if_pos ((any_drive_iff f.id s).mpr h)]

theorem mkNewJob_id (a b c : String) (s : Store) : (mkNewJob a b c s).id = nextId s := rfl

theorem mkNewJob_drive (a b c : String) (s : Store) :
    (mkNewJob a b c s).drive_file_id = a := rfl

theorem scanItem_new (env : Env) (f : DriveFile) (s : Store) (d : String)
    (h : countByDrive f.id s = 0) :
    countByDrive d (scanItem env s f) =
      countByDrive d s + (if f.id = d then 1 else 0) := by
  unfold scanItem create_and_download_job insert_job
  rw [if_neg (fun hc => ((any_drive_iff f.id s).mp hc) h)]
  dsimp only
  cases env.download f.id f.name with
  | error e =>
      dsimp only
      rw [countByDrive_append_single, mkNewJob_drive]
  | ok lp =>
      dsimp only
      have hmem0 : ∃ x ∈ s ++ [mkNewJob f.id f.name "downloading" s],
          x.id = (mkNewJob f.id f.name "downloading" s).id :=
        ⟨_, List.mem_append.mpr (Or.inr (List.mem_singleton.mpr rfl)), rfl⟩
      have hdr0 : ∀ x ∈ s ++ [mkNewJob f.id f.name "downloading" s],
          x.id = (mkNewJob f.id f.name "downloading" s).id →
          x.drive_file_id = (mkNewJob f.id f.name "downloading" s).drive_file_id := by
        intro x hx hxid
        rcases List.mem_append.mp hx with h1 | h1
        · rw [mkNewJob_id] at hxid
          exact absurd hxid (mem_id_ne_nextId s x h1)
        · rw [List.mem_singleton.mp h1]
      obtain ⟨hc2, hm2, hd2⟩ := count_save_step (mkNewJob f.id f.name "downloading" s)
        { mkNewJob f.id f.name "downloading" s with
            local_path := some lp, status := "downloaded" }
        (s ++ [mkNewJob f.id f.name "downloading" s]) d rfl rfl hmem0 hdr0
      rw [process_job_count _ _ _ _ hm2 hd2, hc2, countByDrive_append_single,
        mkNewJob_drive]

theorem fold_scanItem_count (env : Env) : ∀ (files : List DriveFile) (s : Store) (d : String),
    countByDrive d (files.foldl (scanItem env) s) =
      if countByDrive d s = 0 ∧ files.any (fun f => f.id == d) = true then 1
      else countByDrive d s := by
  intro files
  induction files with
  | nil =>
      intro s d
      simp
  | cons f rest ih =>
      intro s d
      rw [List.foldl_cons, ih]
      by_cases h0 : countByDrive f.id s = 0
      · by_cases hfd : f.id = d
        · subst hfd
          have hstep := scanItem_new env f s f.id h0
          rw [if_pos rfl] at hstep
          rw [h0] at hstep
          rw [hstep]
          rw [if_neg (by
            intro hc
            simp at hc)]
          rw [if_pos ⟨h0, by simp [List.any_cons]⟩]
        · have hstep := scanItem_new env f s d h0
          rw [if_neg hfd, Nat.add_zero] at hstep
          rw [hstep]
          have hany : (f :: rest).any (fun g => g.id == d) = rest.any (fun g => g.id == d) := by
            simp [List.any_cons, hfd]
          rw [hany]
      · rw [scanItem_existing env f s h0]
        by_cases hfd : f.id = d
        · subst hfd
          have hc0 : ¬(countByDrive f.id s = 0) := h0
          rw [if_neg (fun hc => hc0 hc.1), if_neg (fun hc => hc0 hc.1)]
        · have hany : (f :: rest).any (fun g => g.id == d) = rest.any (fun g => g.id == d) := by
            simp [List.any_cons, hfd]
          rw [hany]

theorem new_files_any (L : List DriveFile) (s : Store) (d : String) :
    (list_new_files L s).any (fun f => f.id == d) = true ↔
      countByDrive d s = 0 ∧ ∃ f ∈ L, f.id = d ∧ supportedExt f.name = true := by
  unfold list_new_files
  rw [List.any_eq_true]
  constructor
  · rintro ⟨f, hf, hfd⟩
    obtain ⟨hfL, hfp⟩ := List.mem_filter.mp hf
    obtain ⟨hsupp, hnone⟩ :
        supportedExt f.name = true ∧ (get_job_by_drive_id f.id s).isNone = true := by
      simpa using hfp
    have hfd' : f.id = d := by simpa using hfd
    subst hfd'
    exact ⟨(isNone_drive_iff f.id s).mp hnone, f, hfL, rfl, hsupp⟩
  · rintro ⟨hc, f, hfL, rfl, hsupp⟩
    refine ⟨f, List.mem_filter.mpr ⟨hfL, ?_⟩, by simp⟩
    rw [Bool.and_eq_true]
    exact ⟨hsupp, (isNone_drive_iff f.id s).mpr hc⟩

theorem run_pipeline_count (env : Env) (L : List DriveFile) (s : Store) (d : String)
    (hL : env.listing = Except.ok L) :
    countByDrive d (run_pipeline env s) =
      if countByDrive d s = 0 ∧ (∃ f ∈ L, f.id = d ∧ supportedExt f.name = true) then 1
      else countByDrive d s := by
  unfold run_pipeline
  rw [hL]
  dsimp only
  rw [fold_scanItem_count]
  by_cases h : countByDrive d s = 0 ∧ ∃ f ∈ L, f.id = d ∧ supportedExt f.name = true
  · rw [if_pos ⟨h.1, (new_files_any L s d).mpr ⟨h.1, h.2⟩⟩, if_pos h]
  · rw [if_neg (fun hh => h ⟨hh.1, ((new_files_any L s d).mp hh.2).2⟩), if_neg h]

/-- C3: scanning never creates two jobs for the same external (Drive) file
id.  A discovered item already represented by a job is filtered out before
creation, and within a scan the unique index on `drive_file_id` blocks any
duplicate insert, so one scan takes the job count for a discovered id from
0 to exactly 1 (and leaves every other count unchanged), and a second scan
over the same listing creates nothing: every per-id job count is
unchanged. -/
theorem C3_unique_jobs : ∀ (env env2 : Env) (s0 : Store) (d : String) (L : List DriveFile),
    env.listing = Except.ok L → env2.listing = env.listing →
    (countByDrive d (run_pipeline env s0) =
      if countByDrive d s0 = 0 ∧ (∃ f ∈ L, f.id = d ∧ supportedExt f.name = true) then 1
      else countByDrive d s0) ∧
    countByDrive d (run_pipeline env2 (run_pipeline env s0)) =
      countByDrive d (run_pipeline env s0) := by
  intro env env2 s0 d L hL hL2
  have h1 := run_pipeline_count env L s0 d hL
  refine ⟨h1, ?_⟩
  have h2 := run_pipeline_count env2 L (run_pipeline env s0) d (hL2.trans hL)
  rw [h2]
  by_cases hd : ∃ f ∈ L, f.id = d ∧ supportedExt f.name = true
  · by_cases hc : countByDrive d s0 = 0
    · have h1' : countByDrive d (run_pipeline env s0) = 1 := by
        rw [h1, if_pos ⟨hc, hd⟩]
      rw [h1']
      rw [if_neg (fun hh => absurd hh.1 one_ne_zero)]
    · have h1' : countByDrive d (run_pipeline env s0) = countByDrive d s0 := by
        rw [h1, if_neg (fun hh => hc hh.1)]
      rw [h1', if_neg (fun hh => hc hh.1)]
  · rw [if_neg (fun hh => hd hh.2)]

/-- Witness for C3: one Drive file `"F1"` over an empty store — the first
scan creates exactly one job for it and the second scan creates nothing. -/
theorem C3_unique_jobs_witness :
    countByDrive "F1" (run_pipeline envAllOk []) = 1 ∧
    countByDrive "F1" (run_pipeline envAllOk (run_pipeline envAllOk [])) =
      countByDrive "F1" (run_pipeline envAllOk []) := by
  have h := C3_unique_jobs envAllOk envAllOk [] "F1" [⟨"F1", "clip.mp4"⟩] rfl rfl
  constructor
  · rw [h.1, if_pos (And.intro (by with_unfolding_all decide)
      ⟨⟨"F1", "clip.mp4"⟩, by simp, rfl, by with_unfolding_all decide⟩)]
  · exact h.2

/-! ## Failure isolation at the scan loop -/

/-- C1 (code-bug evidence): a failure raised by the download that follows
job creation is caught at the scan loop but is NOT recorded on the job:
with `envDownFailA` (download of file `"A"` raises, everything else
succeeds) the scan leaves the job for `"A"` stuck in status `downloading`
with `error = none` — never transitioned to `failed`, and not even
retryable (`retry_job` rejects it) — contradicting `pipeline.py`'s own
docstring ("On any exception the job is marked `failed` with the error
message stored for debugging.  Failed jobs can be retried…").  The
exception does stay contained and the loop does continue: the job for
`"B"` in the same scan runs to `done`. -/
theorem C1_download_failure_not_failed :
    (get_job_by_drive_id "A" (run_pipeline envDownFailA [])).map
        (fun j => (j.status, j.error)) = some ("downloading", none) ∧
    (get_job_by_drive_id "B" (run_pipeline envDownFailA [])).map
        (fun j => (j.status, j.error)) = some ("done", none) ∧
    retry_job envDownFailA 1 (run_pipeline envDownFailA []) =
      Except.ok (false, run_pipeline envDownFailA []) := by
  exact ⟨by with_unfolding_all decide, by with_unfolding_all decide,
    by with_unfolding_all rfl⟩
